import Mathlib

/-!
Verification of the AP2 (Agent Payments Protocol) Next.js/Stripe demo.

This development shallowly embeds the repository's TypeScript sources:
  * `src/types/ap2.ts` (data model and the JWT/hash utilities appended to it),
  * `src/lib/a2a-protocol.ts` (the A2A envelope builder and readers),
  * `src/pages/api/agents/credentials-provider.ts` and the merchant and
    shopping-agent handlers appended to that file,
and proves or refutes the specification's claims about them.

JavaScript values that flow through `JSON.stringify` are modelled by the
`JsonValue` inductive below.  JavaScript numbers are modelled as exact
rationals (`Rat`); where a claim genuinely depends on IEEE-754 binary64
rounding, an explicit executable binary64 rounding model (`roundB64`) is
used.  Nondeterministic inputs of the code (`Date.now()`, `Math.random()`,
`new Date().toISOString()`, the LLM product matcher, the jose library's
verification outcome) are passed to the embedded functions as explicit
parameters.
-/

namespace AP2

/-- A JavaScript value as seen by `JSON.stringify`: `undefined`, `null`,
booleans, numbers, strings, arrays and plain objects.  An object is a list
of key/value pairs in property insertion order (a real JS object never has
duplicate keys; well-formedness is tracked separately by `keysNodupV`). -/
inductive JsonValue where
  | jundefined
  | jnull
  | jbool (b : Bool)
  | jnum (q : Rat)
  | jstr (s : String)
  | jarr (elems : List JsonValue)
  | jobj (fields : List (String × JsonValue))

/-- Property lookup on an object's field list: the first binding of the key
wins, mirroring JS property access on an object (which cannot actually hold
a duplicate key). -/
def lookupJ (k : String) : List (String × JsonValue) → Option JsonValue
  | [] => none
  | (k', v) :: rest => if k' = k then some v else lookupJ k rest

/-- Digit character for a decimal digit, as JS number-to-string produces. -/
def decDigitChar : Nat → Char
  | 0 => '0' | 1 => '1' | 2 => '2' | 3 => '3' | 4 => '4'
  | 5 => '5' | 6 => '6' | 7 => '7' | 8 => '8' | 9 => '9'
  | _ => '*'

/-- Numeric value of a decimal digit character (left inverse of
`decDigitChar` on digits). -/
def decDigitVal (c : Char) : Nat := c.toNat - 48

/-- `⌊log2 n⌋` (0 at 0), by structural recursion on fuel so that concrete
instances reduce inside the kernel. -/
def natLog2Aux : Nat → Nat → Nat
  | 0, _ => 0
  | fuel + 1, n => if n ≤ 1 then 0 else natLog2Aux fuel (n / 2) + 1

/-- `⌊log2 n⌋` (0 at 0). -/
def natLog2 (n : Nat) : Nat := natLog2Aux n n

/-- Decimal digit characters of a positive natural, most significant first.
The first argument is structural-recursion fuel (any bound on `n` works). -/
def natDecimalAux : Nat → Nat → List Char
  | 0, _ => []
  | fuel + 1, n => if n = 0 then [] else natDecimalAux fuel (n / 10) ++ [decDigitChar (n % 10)]

/-- Decimal rendering of a natural number, as JS renders an integral
`number` (all the integers this code interpolates are below 2^53, where JS
prints the plain decimal expansion). -/
def natDecimal (n : Nat) : String :=
  if n = 0 then "0" else ⟨natDecimalAux n n⟩

/-- Decimal rendering of an integer. -/
def intDecimal (i : Int) : String :=
  if i < 0 then "-" ++ natDecimal i.natAbs else natDecimal i.natAbs

/-- Exact decimal expansion of a non-integral rational whose denominator
divides a power of ten (every IEEE-754 double is such a rational).  Used by
`numToString` below. -/
def decimalExpand (q : Rat) : String :=
  let k := natLog2 q.den + 1
  if q.den ∣ 10 ^ k then
    let scaled := q.num.natAbs * 10 ^ k / q.den
    let digits := natDecimal scaled
    let digits := if digits.length ≤ k then ⟨List.replicate (k + 1 - digits.length) '0'⟩ ++ digits else digits
    let whole : String := ⟨digits.data.take (digits.length - k)⟩
    let frac : List Char := digits.data.drop (digits.length - k)
    let frac := (frac.reverse.dropWhile (· = '0')).reverse
    (if q.num < 0 then "-" else "") ++ whole ++ "." ++ ⟨frac⟩
  else
    intDecimal q.num ++ "/" ++ natDecimal q.den

/-- JS number-to-string as used by `JSON.stringify`.  Exact for integral
values (the only numbers any theorem below evaluates it on).  For
non-integral doubles JS prints the shortest round-tripping decimal; this
model prints the exact decimal expansion instead, which agrees with JS on
all short decimal fractions.  No theorem depends on the non-integral case:
`hashObject` is only ever compared for equality, never decoded. -/
def numToString (q : Rat) : String :=
  if q.den = 1 then intDecimal q.num else decimalExpand q

/-- Hex digit character (lower case, as `digest("hex")` produces). -/
def hexChar (n : Nat) : Char :=
  if n < 10 then decDigitChar n
  else if n = 10 then 'a' else if n = 11 then 'b' else if n = 12 then 'c'
  else if n = 13 then 'd' else if n = 14 then 'e' else 'f'

/-- JSON string quoting (ECMA-262 `QuoteJSONString`): wraps in double
quotes and escapes the quote, backslash and control characters. -/
def quoteJsonChar (c : Char) : List Char :=
  if c = '"' then ['\\', '"']
  else if c = '\\' then ['\\', '\\']
  else if c.toNat = 8 then ['\\', 'b']
  else if c.toNat = 9 then ['\\', 't']
  else if c.toNat = 10 then ['\\', 'n']
  else if c.toNat = 12 then ['\\', 'f']
  else if c.toNat = 13 then ['\\', 'r']
  else if c.toNat < 32 then ['\\', 'u', '0', '0', hexChar (c.toNat / 16), hexChar (c.toNat % 16)]
  else [c]

/-- JSON string quoting of a whole string. -/
def quoteJson (s : String) : String :=
  "\"" ++ ⟨s.data.flatMap quoteJsonChar⟩ ++ "\""

/-- Comma-join, as the object/array member separator of `JSON.stringify`
output with no gap argument. -/
def commaJoin : List String → String
  | [] => ""
  | [s] => s
  | s :: rest => s ++ "," ++ commaJoin rest

/-- Lookup in a pre-serialized field list (first binding wins). -/
def lookupSer (k : String) : List (String × Option String) → Option (Option String)
  | [] => none
  | (k', v) :: rest => if k' = k then some v else lookupSer k rest

/-- Emit the members of an object under property list `K` (ECMA-262
`SerializeJSONObject`): with `K = some ks` (an array replacer was given),
for each key of `ks` in order, the key/value member if the object has the
key with a defined value, nothing otherwise; with `K = none` (no replacer),
every key with a defined value, in insertion order. -/
def selectFields (K : Option (List String)) (fields : List (String × Option String)) : List String :=
  match K with
  | some ks =>
    ks.filterMap fun k =>
      match lookupSer k fields with
      | some (some s) => some (quoteJson k ++ ":" ++ s)
      | _ => none
  | none =>
    fields.filterMap fun kv =>
      match kv.2 with
      | some s => some (quoteJson kv.1 ++ ":" ++ s)
      | none => none

mutual
/-- ECMA-262 `SerializeJSONProperty` under optional array replacer `K`:
`none` means the property is `undefined` and is skipped by the caller.
Note that `K = some ks` filters the keys of objects at every depth — this
is exactly the behavior of `JSON.stringify(obj, replacerArray)` that
`hashObject` relies on.  (This model pre-serializes all fields and then
selects by `K`; the output is the same as serializing only the selected
properties.) -/
def serializeProp (K : Option (List String)) : JsonValue → Option String
  | .jundefined => none
  | .jnull => some "null"
  | .jbool b => some (if b then "true" else "false")
  | .jnum q => some (numToString q)
  | .jstr s => some (quoteJson s)
  | .jarr xs => some ("[" ++ commaJoin (serializeArr K xs) ++ "]")
  | .jobj l => some ("\x7b" ++ commaJoin (selectFields K (serializeFields K l)) ++ "\x7d")

/-- Serialize the elements of an array (an `undefined` element prints as
`null`, per `SerializeJSONArray`). -/
def serializeArr (K : Option (List String)) : List JsonValue → List String
  | [] => []
  | x :: xs =>
    (match serializeProp K x with
     | some s => s
     | none => "null") :: serializeArr K xs

/-- Serialize every field value of an object (selection by `K` happens in
`selectFields`). -/
def serializeFields (K : Option (List String)) : List (String × JsonValue) → List (String × Option String)
  | [] => []
  | (k, v) :: rest => (k, serializeProp K v) :: serializeFields K rest
end

/-- Plain `JSON.stringify(v)` (no replacer); `none` when `v` is `undefined`
(where JS returns the non-string `undefined`). -/
def jsonStringify (v : JsonValue) : Option String := serializeProp none v

/-- `Object.keys`: own enumerable property names in insertion order; for an
array, the element indices. -/
def topKeys : JsonValue → List String
  | .jobj l => l.map Prod.fst
  | .jarr xs => (List.range xs.length).map natDecimal
  | _ => []

/-- Boolean lexicographic comparison of char lists by code point — the
comparison `Array.prototype.sort`'s default comparator effectively applies
to key strings. -/
def charListLeb : List Char → List Char → Bool
  | [], _ => true
  | _ :: _, [] => false
  | a :: as, b :: bs =>
    if a.toNat < b.toNat then true
    else if b.toNat < a.toNat then false
    else charListLeb as bs

/-- Boolean lexicographic string comparison (UTF-16-order on these ASCII
keys coincides with code-point order). -/
def strLeb (a b : String) : Bool := charListLeb a.data b.data

/-- The corresponding ordering proposition. -/
def strLe (a b : String) : Prop := strLeb a b = true

instance : DecidableRel strLe := fun a b => by unfold strLe; infer_instance

/-- `Object.keys(obj).sort()`: the key list in ascending lexicographic
order. -/
def sortKeys (l : List String) : List String := List.insertionSort strLe l

/-- The canonical JSON text `hashObject` hashes:
`JSON.stringify(obj, Object.keys(obj).sort())` from `src/types/ap2.ts`.
(`JSON.stringify(undefined, _)` is not a string; that case is unreachable
here.) -/
def canonicalJson (obj : JsonValue) : String :=
  (serializeProp (some (sortKeys (topKeys obj))) obj).getD "undefined"

/-! SHA-256 over the UTF-8 bytes of the canonical JSON text, implementing
`crypto.createHash("sha256").update(canonicalJson).digest("hex")`.  All
words are `Nat` reduced mod 2^32.  The theorems below only use that this is
a function of the canonical text (equal inputs give equal digests). -/

/-- UTF-8 encoding of one character, written with quotient/remainder
arithmetic (`0xC0 + n / 64` is `0xC0 ||| (n >>> 6)` and so on, since the
bit ranges are disjoint). -/
def charUtf8 (c : Char) : List Nat :=
  let n := c.toNat
  if n < 128 then [n]
  else if n < 2048 then [192 + n / 64, 128 + n % 64]
  else if n < 65536 then [224 + n / 4096, 128 + n / 64 % 64, 128 + n % 64]
  else [240 + n / 262144, 128 + n / 4096 % 64, 128 + n / 64 % 64, 128 + n % 64]

/-- UTF-8 bytes of a string. -/
def utf8Bytes (s : String) : List Nat := s.data.flatMap charUtf8

/-- Right rotation of a 32-bit word. -/
def rotr32 (x n : Nat) : Nat := ((x >>> n) ||| (x <<< (32 - n))) &&& 0xFFFFFFFF

/-- The SHA-256 round constants. -/
def sha256K : List Nat :=
  [1116352408, 1899447441, 3049323471, 3921009573, 961987163, 1508970993,
   2453635748, 2870763221, 3624381080, 310598401, 607225278, 1426881987,
   1925078388, 2162078206, 2614888103, 3248222580, 3835390401, 4022224774,
   264347078, 604807628, 770255983, 1249150122, 1555081692, 1996064986,
   2554220882, 2821834349, 2952996808, 3210313671, 3336571891, 3584528711,
   113926993, 338241895, 666307205, 773529912, 1294757372, 1396182291,
   1695183700, 1986661051, 2177026350, 2456956037, 2730485921, 2820302411,
   3259730800, 3345764771, 3516065817, 3600352804, 4094571909, 275423344,
   430227734, 506948616, 659060556, 883997877, 958139571, 1322822218,
   1537002063, 1747873779, 1955562222, 2024104815, 2227730452, 2361852424,
   2428436474, 2756734187, 3204031479, 3329325298]

/-- SHA-256 message padding: append `0x80`, zeros, and the 64-bit big-endian
bit length so the total length is a multiple of 64 bytes. -/
def shaPad (msg : List Nat) : List Nat :=
  let len := msg.length
  let r := (len + 1) % 64
  let zeros := (120 - r) % 64
  msg ++ [0x80] ++ List.replicate zeros 0 ++
    (List.range 8).map fun i => ((len * 8) >>> ((7 - i) * 8)) &&& 0xFF

/-- Big-endian 32-bit words from bytes. -/
def bytesToWords : List Nat → List Nat
  | a :: b :: c :: d :: rest => ((a <<< 24) ||| (b <<< 16) ||| (c <<< 8) ||| d) :: bytesToWords rest
  | _ => []

/-- Extend a 16-word block to the 64-word message schedule (the first
argument counts the remaining extension steps). -/
def shaExtend : Nat → List Nat → List Nat
  | 0, w => w
  | fuel + 1, w =>
    let len := w.length
    let w15 := w.getD (len - 15) 0
    let w2 := w.getD (len - 2) 0
    let s0 := (rotr32 w15 7) ^^^ (rotr32 w15 18) ^^^ (w15 >>> 3)
    let s1 := (rotr32 w2 17) ^^^ (rotr32 w2 19) ^^^ (w2 >>> 10)
    shaExtend fuel (w ++ [(w.getD (len - 16) 0 + s0 + w.getD (len - 7) 0 + s1) % 4294967296])

/-- The eight working variables of the SHA-256 compression function. -/
structure Sha8 where
  a : Nat
  b : Nat
  c : Nat
  d : Nat
  e : Nat
  f : Nat
  g : Nat
  h : Nat

/-- One round of the compression function. -/
def shaStep (s : Sha8) (kw : Nat × Nat) : Sha8 :=
  let S1 := (rotr32 s.e 6) ^^^ (rotr32 s.e 11) ^^^ (rotr32 s.e 25)
  let ch := (s.e &&& s.f) ^^^ ((s.e ^^^ 0xFFFFFFFF) &&& s.g)
  let t1 := (s.h + S1 + ch + kw.1 + kw.2) % 4294967296
  let S0 := (rotr32 s.a 2) ^^^ (rotr32 s.a 13) ^^^ (rotr32 s.a 22)
  let mj := (s.a &&& s.b) ^^^ (s.a &&& s.c) ^^^ (s.b &&& s.c)
  let t2 := (S0 + mj) % 4294967296
  ⟨(t1 + t2) % 4294967296, s.a, s.b, s.c, (s.d + t1) % 4294967296, s.e, s.f, s.g⟩

/-- Compress one padded 64-byte chunk into the running hash state. -/
def shaChunk (s : Sha8) (chunk : List Nat) : Sha8 :=
  let w := shaExtend 48 (bytesToWords chunk)
  let t := (sha256K.zip w).foldl shaStep s
  ⟨(s.a + t.a) % 4294967296, (s.b + t.b) % 4294967296, (s.c + t.c) % 4294967296,
   (s.d + t.d) % 4294967296, (s.e + t.e) % 4294967296, (s.f + t.f) % 4294967296,
   (s.g + t.g) % 4294967296, (s.h + t.h) % 4294967296⟩

/-- Process all 64-byte chunks (the first argument is recursion fuel, any
bound on the chunk count). -/
def shaChunks : Nat → Sha8 → List Nat → Sha8
  | 0, s, _ => s
  | _, s, [] => s
  | fuel + 1, s, bytes => shaChunks fuel (shaChunk s (bytes.take 64)) (bytes.drop 64)

/-- Big-endian bytes of a 32-bit word. -/
def wordBytes (w : Nat) : List Nat :=
  [(w >>> 24) &&& 0xFF, (w >>> 16) &&& 0xFF, (w >>> 8) &&& 0xFF, w &&& 0xFF]

/-- SHA-256 of a byte string. -/
def sha256 (msg : List Nat) : List Nat :=
  let padded := shaPad msg
  let s := shaChunks (padded.length + 1)
    ⟨0x6a09e667, 0xbb67ae85, 0x3c6ef372, 0xa54ff53a, 0x510e527f, 0x9b05688c, 0x1f83d9ab, 0x5be0cd19⟩
    padded
  wordBytes s.a ++ wordBytes s.b ++ wordBytes s.c ++ wordBytes s.d ++
    wordBytes s.e ++ wordBytes s.f ++ wordBytes s.g ++ wordBytes s.h

/-- Lower-case hex rendering of bytes. -/
def bytesToHex (bs : List Nat) : String :=
  ⟨bs.flatMap fun b => [hexChar (b / 16 % 16), hexChar (b % 16)]⟩

/-- Hex-encoded SHA-256 of a string's UTF-8 bytes. -/
def sha256hex (s : String) : String := bytesToHex (sha256 (utf8Bytes s))

/-- `hashObject` from `src/types/ap2.ts`:
`crypto.createHash("sha256").update(JSON.stringify(obj, Object.keys(obj).sort())).digest("hex")`. -/
def hashObject (obj : JsonValue) : String := sha256hex (canonicalJson obj)

/-! ### base64url, HMAC-SHA256 and the compact JWS serialization

`signCartMandate`/`signPaymentMandate` return the jose library's compact
JWS: `base64url(headerJson) ++ "." ++ base64url(payloadJson) ++ "." ++
base64url(HMAC-SHA256(secret, signingInput))`, with unpadded base64url.
The signing secret (`SECRET_KEY`, the UTF-8 bytes of the `JWT_SECRET`
environment variable) is passed in as a parameter. -/

/-- The base64url alphabet. -/
def b64Alphabet : List Char :=
  ['A', 'B', 'C', 'D', 'E', 'F', 'G', 'H', 'I', 'J', 'K', 'L', 'M',
   'N', 'O', 'P', 'Q', 'R', 'S', 'T', 'U', 'V', 'W', 'X', 'Y', 'Z',
   'a', 'b', 'c', 'd', 'e', 'f', 'g', 'h', 'i', 'j', 'k', 'l', 'm',
   'n', 'o', 'p', 'q', 'r', 's', 't', 'u', 'v', 'w', 'x', 'y', 'z',
   '0', '1', '2', '3', '4', '5', '6', '7', '8', '9', '-', '_']

/-- The base64url digit for a sextet. -/
def b64Char (n : Nat) : Char := b64Alphabet.getD n '_'

/-- Unpadded base64url encoding of a byte list (3 bytes to 4 digits; a
final 1- or 2-byte group to 2 or 3 digits). -/
def b64Encode : List Nat → List Char
  | [] => []
  | [a] => [b64Char (a / 4), b64Char (a % 4 * 16)]
  | [a, b] => [b64Char (a / 4), b64Char (a % 4 * 16 + b / 16), b64Char (b % 16 * 4)]
  | a :: b :: c :: rest =>
    b64Char (a / 4) :: b64Char (a % 4 * 16 + b / 16) ::
      b64Char (b % 16 * 4 + c / 64) :: b64Char (c % 64) :: b64Encode rest

/-- Unpadded base64url of a byte list, as a string. -/
def b64Str (bytes : List Nat) : String := ⟨b64Encode bytes⟩

/-- HMAC-SHA256 (RFC 2104) with the given key bytes. -/
def hmacSha256 (key msg : List Nat) : List Nat :=
  let key := if key.length > 64 then sha256 key else key
  let key := key ++ List.replicate (64 - key.length) 0
  let ipad := key.map (fun b => b ^^^ 0x36)
  let opad := key.map (fun b => b ^^^ 0x5c)
  sha256 (opad ++ sha256 (ipad ++ msg))

/-- The jose compact JWS over the given protected-header and payload JSON
texts, signed with HMAC-SHA256 (`alg: "HS256"`). -/
def compactJWS (secret : String) (headerJson payloadJson : String) : String :=
  let signingInput := b64Str (utf8Bytes headerJson) ++ "." ++ b64Str (utf8Bytes payloadJson)
  signingInput ++ "." ++ b64Str (hmacSha256 (utf8Bytes secret) (utf8Bytes signingInput))

/-! ### The AP2 data model (`src/types/ap2.ts`)

TypeScript `number` fields are modelled as exact rationals (`Rat`); see
`roundB64` below for the explicit IEEE-754 binary64 model used where a
claim depends on rounding.  `Record<string, any>` fields are modelled as
JS object field lists. -/

/-- W3C `PaymentCurrencyAmount`. -/
structure PaymentCurrencyAmount where
  currency : String
  value : Rat

/-- W3C `PaymentItem`. -/
structure PaymentItem where
  label : String
  amount : PaymentCurrencyAmount
  pending : Option Bool
  refund_period : Option Rat

/-- W3C `PaymentShippingOption`. -/
structure PaymentShippingOption where
  id : String
  label : String
  amount : PaymentCurrencyAmount
  selected : Option Bool

/-- W3C `PaymentMethodData`. -/
structure PaymentMethodData where
  supported_methods : String
  data : Option (List (String × JsonValue))

/-- W3C `ContactAddress`. -/
structure ContactAddress where
  country : Option String
  addressLine : Option (List String)
  region : Option String
  city : Option String
  dependentLocality : Option String
  postalCode : Option String
  sortingCode : Option String
  organization : Option String
  recipient : Option String
  phone : Option String

/-- W3C `PaymentOptions` (`shipping_type` is one of
`"shipping" | "delivery" | "pickup"`). -/
structure PaymentOptions where
  request_payer_name : Option Bool
  request_payer_email : Option Bool
  request_payer_phone : Option Bool
  request_shipping : Option Bool
  shipping_type : Option String

/-- W3C `PaymentDetailsInit`. -/
structure PaymentDetailsInit where
  id : String
  display_items : List PaymentItem
  shipping_options : Option (List PaymentShippingOption)
  total : PaymentItem

/-- W3C `PaymentRequest`. -/
structure PaymentRequest where
  method_data : List PaymentMethodData
  details : PaymentDetailsInit
  options : Option PaymentOptions
  shipping_address : Option ContactAddress

/-- W3C `PaymentResponse`. -/
structure PaymentResponse where
  request_id : String
  method_name : String
  details : Option (List (String × JsonValue))
  shipping_address : Option ContactAddress
  shipping_option : Option PaymentShippingOption
  payer_name : Option String
  payer_email : Option String
  payer_phone : Option String

/-- AP2 `IntentMandate`. -/
structure IntentMandate where
  user_cart_confirmation_required : Bool
  natural_language_description : String
  merchants : Option (List String)
  skus : Option (List String)
  requires_refundability : Option Bool
  intent_expiry : String

/-- AP2 `CartContents`.  The merchant handler constructs these with one
extra field beyond the declared interface
(`CartContents & { image_url?: string }`), so `image_url` is included
here. -/
structure CartContents where
  id : String
  user_cart_confirmation_required : Bool
  payment_request : PaymentRequest
  cart_expiry : String
  merchant_name : String
  image_url : Option String

/-- AP2 `CartMandate`; `merchant_authorization` is the merchant's compact
JWS string. -/
structure CartMandate where
  contents : CartContents
  merchant_authorization : Option String

/-- AP2 `PaymentMandateContents`. -/
structure PaymentMandateContents where
  payment_mandate_id : String
  payment_details_id : String
  payment_details_total : PaymentItem
  payment_response : PaymentResponse
  merchant_agent : String
  timestamp : String

/-- AP2 `PaymentMandate`; `user_authorization` is the user's compact JWS
string. -/
structure PaymentMandate where
  payment_mandate_contents : PaymentMandateContents
  user_authorization : Option String

/-- A stored wallet `PaymentMethod` (`type` is one of
`"card" | "bank" | "wallet"`; `alias` is rendered `aliasName` because
`alias` is a Lean command keyword). -/
structure PaymentMethod where
  id : String
  aliasName : String
  type : String
  last4 : Option String
  brand : Option String

/-- A catalog `VacationPackage`. -/
structure VacationPackage where
  id : String
  name : String
  destination : String
  region : String
  activities : List String
  description : String
  price : Rat
  currency : String
  duration_days : Option Rat
  includes : Option (List String)
  image_url : Option String
  available_dates : Option (List String)

/-- `CartMandateJWTPayload`: the claim set `signCartMandate` builds.  The
source types the input cart as `any`; `cart_id` is whatever JS property
access `cartContents.id` yields (possibly `undefined`).  `iat`/`exp` are
always set by this code. -/
structure CartMandateJWTPayload where
  iss : String
  sub : String
  aud : String
  cart_id : Option JsonValue
  cart_hash : String
  iat : Nat
  exp : Nat
  jti : String

/-- `PaymentMandateJWTPayload`: the claim set `signPaymentMandate` builds. -/
structure PaymentMandateJWTPayload where
  iss : String
  sub : String
  aud : String
  payment_mandate_id : String
  mandate_hash : String
  transaction_data : List String
  iat : Nat
  exp : Nat
  jti : String

/-! ### JS-object encodings of the structures

Each `...ToJson` function lists the keys of the runtime JS object in the
insertion order of the corresponding object literal in the source; a key
whose TS optional field is absent in that literal is omitted. -/

/-- Append an optional field to a JS-object field list. -/
def optField (k : String) : Option JsonValue → List (String × JsonValue)
  | some v => [(k, v)]
  | none => []

/-- `PaymentCurrencyAmount` object (`{ currency, value }`). -/
def amountToJson (a : PaymentCurrencyAmount) : JsonValue :=
  .jobj [("currency", .jstr a.currency), ("value", .jnum a.value)]

/-- `PaymentItem` object as the merchant literals build it
(`{ label, amount, refund_period? }` — `pending` is never set). -/
def paymentItemToJson (it : PaymentItem) : JsonValue :=
  .jobj ([("label", .jstr it.label), ("amount", amountToJson it.amount)]
    ++ optField "pending" (it.pending.map .jbool)
    ++ optField "refund_period" (it.refund_period.map .jnum))

/-- `PaymentMethodData` object (`{ supported_methods, data? }`). -/
def methodDataToJson (md : PaymentMethodData) : JsonValue :=
  .jobj ([("supported_methods", .jstr md.supported_methods)]
    ++ optField "data" (md.data.map .jobj))

/-- `PaymentOptions` object in the merchant literal's insertion order
(`{ request_payer_email, request_payer_name, request_shipping }`). -/
def paymentOptionsToJson (o : PaymentOptions) : JsonValue :=
  .jobj (optField "request_payer_email" (o.request_payer_email.map .jbool)
    ++ optField "request_payer_name" (o.request_payer_name.map .jbool)
    ++ optField "request_payer_phone" (o.request_payer_phone.map .jbool)
    ++ optField "request_shipping" (o.request_shipping.map .jbool)
    ++ optField "shipping_type" (o.shipping_type.map .jstr))

/-- `PaymentShippingOption` object (`{ id, label, amount, selected? }`). -/
def shippingOptionToJson (o : PaymentShippingOption) : JsonValue :=
  .jobj ([("id", .jstr o.id), ("label", .jstr o.label), ("amount", amountToJson o.amount)]
    ++ optField "selected" (o.selected.map .jbool))

/-- `PaymentDetailsInit` object
(`{ id, display_items, total }` in the merchant literal). -/
def paymentDetailsToJson (d : PaymentDetailsInit) : JsonValue :=
  .jobj ([("id", .jstr d.id), ("display_items", .jarr (d.display_items.map paymentItemToJson))]
    ++ optField "shipping_options" (d.shipping_options.map fun l => .jarr (l.map shippingOptionToJson))
    ++ [("total", paymentItemToJson d.total)])

/-- `PaymentRequest` object (`{ method_data, details, options }`). -/
def paymentRequestToJson (pr : PaymentRequest) : JsonValue :=
  .jobj ([("method_data", .jarr (pr.method_data.map methodDataToJson)),
    ("details", paymentDetailsToJson pr.details)]
    ++ optField "options" (pr.options.map paymentOptionsToJson))

/-- `CartContents` object in the merchant literal's insertion order
(`{ id, user_cart_confirmation_required, merchant_name, cart_expiry,
image_url, payment_request }`). -/
def cartContentsToJson (c : CartContents) : JsonValue :=
  .jobj ([("id", .jstr c.id),
    ("user_cart_confirmation_required", .jbool c.user_cart_confirmation_required),
    ("merchant_name", .jstr c.merchant_name),
    ("cart_expiry", .jstr c.cart_expiry)]
    ++ optField "image_url" (c.image_url.map .jstr)
    ++ [("payment_request", paymentRequestToJson c.payment_request)])

/-- `CartMandate` object (`{ contents, merchant_authorization }`). -/
def cartMandateToJson (cm : CartMandate) : JsonValue :=
  .jobj ([("contents", cartContentsToJson cm.contents)]
    ++ optField "merchant_authorization" (cm.merchant_authorization.map .jstr))

/-- `IntentMandate` object in the shopping-agent literal's insertion order
(`{ user_cart_confirmation_required, natural_language_description,
requires_refundability, intent_expiry }`). -/
def intentMandateToJson (im : IntentMandate) : JsonValue :=
  .jobj ([("user_cart_confirmation_required", .jbool im.user_cart_confirmation_required),
    ("natural_language_description", .jstr im.natural_language_description)]
    ++ optField "requires_refundability" (im.requires_refundability.map .jbool)
    ++ [("intent_expiry", .jstr im.intent_expiry)])

/-- A wallet `PaymentMethod` object (`{ id, alias, type, last4?, brand? }`). -/
def paymentMethodToJson (pm : PaymentMethod) : JsonValue :=
  .jobj ([("id", .jstr pm.id), ("alias", .jstr pm.aliasName), ("type", .jstr pm.type)]
    ++ optField "last4" (pm.last4.map .jstr)
    ++ optField "brand" (pm.brand.map .jstr))

/-- `PaymentResponse` object in the shopping-agent literal's insertion
order (`{ request_id, method_name, details, payer_email, payer_name }`). -/
def paymentResponseToJson (r : PaymentResponse) : JsonValue :=
  .jobj ([("request_id", .jstr r.request_id), ("method_name", .jstr r.method_name)]
    ++ optField "details" (r.details.map .jobj)
    ++ optField "payer_email" (r.payer_email.map .jstr)
    ++ optField "payer_name" (r.payer_name.map .jstr))

/-- `PaymentMandateContents` object in the shopping-agent literal's
insertion order. -/
def paymentMandateContentsToJson (c : PaymentMandateContents) : JsonValue :=
  .jobj [("payment_mandate_id", .jstr c.payment_mandate_id),
    ("payment_details_id", .jstr c.payment_details_id),
    ("payment_details_total", paymentItemToJson c.payment_details_total),
    ("payment_response", paymentResponseToJson c.payment_response),
    ("merchant_agent", .jstr c.merchant_agent),
    ("timestamp", .jstr c.timestamp)]

/-! ### Mandate signing (`src/lib/jwt-utils.ts`, appended to `ap2.ts`) -/

/-- JS property access `v.k` on an `any` value (`undefined` on
non-objects/missing keys). -/
def jget (v : JsonValue) (k : String) : Option JsonValue :=
  match v with
  | .jobj l => lookupJ k l
  | _ => none

/-- JS template interpolation of an `any` value (only ever exercised on
strings and `undefined` below; array/object display is approximated). -/
def jsDisplay : Option JsonValue → String
  | none => "undefined"
  | some .jundefined => "undefined"
  | some .jnull => "null"
  | some (.jbool b) => if b then "true" else "false"
  | some (.jnum q) => numToString q
  | some (.jstr s) => s
  | some (.jarr _) => ""
  | some (.jobj _) => "[object Object]"

/-- The jose protected-header JSON for the merchant key. -/
def merchantHeaderJson : String :=
  (serializeProp none (.jobj [("alg", .jstr "HS256"), ("kid", .jstr "merchant-key-2024")])).getD ""

/-- The jose protected-header JSON for the user key. -/
def userHeaderJson : String :=
  (serializeProp none (.jobj [("alg", .jstr "HS256"), ("kid", .jstr "user-key-2024")])).getD ""

/-- The claim set of `signCartMandate(cartContents)` at issue time `nowSec`
(seconds since epoch): issuer/subject/audience constants, `cart_id`,
`cart_hash = hashObject(cartContents)`, issued-at, a 15-minute expiry and
`jti = "jwt-" + cartContents.id`. -/
def cartMandatePayload (cartContents : JsonValue) (nowSec : Nat) : CartMandateJWTPayload :=
  { iss := "tropical-paradise-vacations"
    sub := "merchant-agent-001"
    aud := "payment-processor"
    cart_id := jget cartContents "id"
    cart_hash := hashObject cartContents
    iat := nowSec
    exp := nowSec + 15 * 60
    jti := "jwt-" ++ jsDisplay (jget cartContents "id") }

/-- The claim-set JSON of a cart-mandate JWT, in jose's insertion order. -/
def cartPayloadJson (p : CartMandateJWTPayload) : String :=
  (serializeProp none (.jobj ([("iss", .jstr p.iss), ("sub", .jstr p.sub), ("aud", .jstr p.aud)]
    ++ (match p.cart_id with | some v => [("cart_id", v)] | none => [("cart_id", .jundefined)])
    ++ [("cart_hash", .jstr p.cart_hash), ("iat", .jnum p.iat), ("exp", .jnum p.exp),
        ("jti", .jstr p.jti)]))).getD ""

/-- `signCartMandate` from the source: hash the cart contents and return
the signed compact JWS embedding that digest. -/
def signCartMandate (secret : String) (cartContents : JsonValue) (nowSec : Nat) : String :=
  compactJWS secret merchantHeaderJson (cartPayloadJson (cartMandatePayload cartContents nowSec))

/-- The claim set of `signPaymentMandate(paymentMandateContents)` at issue
time `nowSec`: user identity constants, the mandate id, `mandate_hash =
hashObject(contents)`, `transaction_data = [mandate_hash]`, issued-at, a
one-hour expiry and `jti = "user-sig-" + payment_mandate_id`. -/
def paymentMandatePayload (contents : PaymentMandateContents) (nowSec : Nat) : PaymentMandateJWTPayload :=
  { iss := "did:example:user123"
    sub := "user-credential"
    aud := "merchant"
    payment_mandate_id := contents.payment_mandate_id
    mandate_hash := hashObject (paymentMandateContentsToJson contents)
    transaction_data := [hashObject (paymentMandateContentsToJson contents)]
    iat := nowSec
    exp := nowSec + 60 * 60
    jti := "user-sig-" ++ contents.payment_mandate_id }

/-- The claim-set JSON of a payment-mandate JWT, in jose's insertion
order. -/
def paymentPayloadJson (p : PaymentMandateJWTPayload) : String :=
  (serializeProp none (.jobj [("iss", .jstr p.iss), ("sub", .jstr p.sub), ("aud", .jstr p.aud),
    ("payment_mandate_id", .jstr p.payment_mandate_id),
    ("mandate_hash", .jstr p.mandate_hash),
    ("transaction_data", .jarr (p.transaction_data.map .jstr)),
    ("iat", .jnum p.iat), ("exp", .jnum p.exp), ("jti", .jstr p.jti)])).getD ""

/-- `signPaymentMandate` from the source (simulated user device
signature). -/
def signPaymentMandate (secret : String) (contents : PaymentMandateContents) (nowSec : Nat) : String :=
  compactJWS secret userHeaderJson (paymentPayloadJson (paymentMandatePayload contents nowSec))

/-- A JS runtime `Error` value: its `name` (the error class) and
`message`. -/
structure JsError where
  name : String
  message : String

/-- The jose `JWTExpired` error (`"exp" claim timestamp check failed`)
thrown by `jwtVerify` when the token's expiry has passed. -/
def joseExpiredError : JsError :=
  ⟨"JWTExpired", "\"exp\" claim timestamp check failed"⟩

/-- The jose `JWSSignatureVerificationFailed` error thrown by `jwtVerify`
when the signature does not validate against the key. -/
def joseSignatureError : JsError :=
  ⟨"JWSSignatureVerificationFailed", "signature verification failed"⟩

/-- JS `${error}` on an `Error` value (`Error.prototype.toString`). -/
def jsErrorDisplay (e : JsError) : String := e.name ++ ": " ++ e.message

/-- `verifyJWT` from the source, over the outcome of the external
`jwtVerify(token, SECRET_KEY)` call (passed in as a parameter): the payload
on success; on any failure it catches the jose error and throws
`new Error("JWT verification failed: " + error)` — a plain `Error`. -/
def verifyJWT (joseOutcome : Except JsError JsonValue) : Except JsError JsonValue :=
  match joseOutcome with
  | .ok payload => .ok payload
  | .error e => .error ⟨"Error", "JWT verification failed: " ++ jsErrorDisplay e⟩

/-- The `name` of the error a `verifyJWT` outcome failed with, if any. -/
def errName : Except JsError JsonValue → Option String
  | .error e => some e.name
  | .ok _ => none

/-! ### The A2A envelope (`src/lib/a2a-protocol.ts`) -/

/-- A message part: `{ type: "text", text }` or `{ type: "data", data }`. -/
inductive Part where
  | text (text : String)
  | data (data : List (String × JsonValue))

/-- An `A2AMessage` envelope. -/
structure A2AMessage where
  message_id : String
  context_id : Option String
  task_id : Option String
  role : String
  parts : List Part
  timestamp : String

/-- `new A2AMessageBuilder()`: fresh id and timestamp (both environment
inputs here), role `"agent"`, no parts. -/
def newA2AMessage (msgId ts : String) : A2AMessage :=
  { message_id := msgId, context_id := none, task_id := none, role := "agent",
    parts := [], timestamp := ts }

/-- `builder.addText(text)`. -/
def addText (m : A2AMessage) (text : String) : A2AMessage :=
  { m with parts := m.parts ++ [.text text] }

/-- `builder.addData(key, data)`: pushes a data part holding the single
binding `{ [key]: data }`. -/
def addData (m : A2AMessage) (key : String) (v : JsonValue) : A2AMessage :=
  { m with parts := m.parts ++ [.data [(key, v)]] }

/-- `builder.setContextId(contextId)` (handlers pass a possibly-`undefined`
incoming `context_id` through here). -/
def setContextId (m : A2AMessage) (ctx : Option String) : A2AMessage :=
  { m with context_id := ctx }

/-- JS truthiness of a value (`NaN` does not arise here). -/
def truthy : JsonValue → Bool
  | .jundefined => false
  | .jnull => false
  | .jbool b => b
  | .jnum q => !(q == 0)
  | .jstr s => !(s == "")
  | .jarr _ => true
  | .jobj _ => true

/-- JS strict equality `v === s` between an `any` value (or `null`, as
`extractDataFromMessage` yields) and a string literal. -/
def isStrVal (v : Option JsonValue) (s : String) : Bool :=
  match v with
  | some (.jstr t) => t == s
  | _ => false

/-- The part loop of `extractDataFromMessage`: return `part.data[key]` for
the first data part where that value is truthy (the source guard is
`part.type === "data" && part.data[key]`), else `null`. -/
def extractDataAux (key : String) : List Part → Option JsonValue
  | [] => none
  | .text _ :: rest => extractDataAux key rest
  | .data d :: rest =>
    match lookupJ key d with
    | some v => if truthy v then some v else extractDataAux key rest
    | none => extractDataAux key rest

/-- `extractDataFromMessage(message, key)` from the source.  `none` models
the `null` it returns when no data part has a truthy value under `key`. -/
def extractDataFromMessage (message : A2AMessage) (key : String) : Option JsonValue :=
  extractDataAux key message.parts

/-- Space-join of a string list (`Array.prototype.join(" ")`). -/
def spaceJoin : List String → String
  | [] => ""
  | [s] => s
  | s :: rest => s ++ " " ++ spaceJoin rest

/-- `extractTextFromMessage(message)` from the source: the `text` of every
text part, space-joined, in part order. -/
def extractTextFromMessage (message : A2AMessage) : String :=
  spaceJoin (message.parts.filterMap fun p =>
    match p with
    | .text t => some t
    | .data _ => none)

/-! ### The agent API handlers
(`src/pages/api/agents/credentials-provider.ts` and the merchant and
shopping-agent handlers in the same source file) -/

/-- The outcome of one agent API invocation, by response shape:
`405 {error: "Method not allowed"}`, `401 {error: "Unauthorized shopping
agent"}`, `200 {task: {id, status: "completed", result}}`, or the catch-all
`500 {error, details}`. -/
inductive AgentResult where
  | methodNotAllowed
  | unauthorized
  | completed (taskId : String) (result : A2AMessage)
  | serverError (details : String)

/-- The HTTP status code of an `AgentResult`. -/
def statusOf : AgentResult → Nat
  | .methodNotAllowed => 405
  | .unauthorized => 401
  | .completed _ _ => 200
  | .serverError _ => 500

/-- The environment inputs one handler invocation draws: `Date.now()` (ms),
the same clock in seconds (jose's issued-at), the builder's generated
message id and ISO timestamp, and `new Date(x).toISOString()`. -/
structure AgentEnv where
  nowMs : Nat
  nowSec : Nat
  msgId : String
  ts : String
  isoDate : Nat → String

/-- The mock wallet `USER_PAYMENT_METHODS` of the credentials provider. -/
def USER_PAYMENT_METHODS : List PaymentMethod :=
  [{ id := "pm-001", aliasName := "Primary Visa", type := "card",
     last4 := some "4242", brand := some "Visa" },
   { id := "pm-002", aliasName := "Mastercard Rewards", type := "card",
     last4 := some "5555", brand := some "Mastercard" },
   { id := "pm-003", aliasName := "Digital Wallet", type := "wallet",
     last4 := none, brand := none }]

/-- ASCII lower-casing of one character (`String.prototype.toLowerCase` on
the ASCII texts this code matches against). -/
def asciiLower (c : Char) : Char :=
  if 65 ≤ c.toNat ∧ c.toNat ≤ 90 then Char.ofNat (c.toNat + 32) else c

/-- `s.toLowerCase()` on ASCII strings. -/
def jsToLower (s : String) : String := ⟨s.data.map asciiLower⟩

/-- Does `pat` occur at the head of `s`? -/
def listStartsWith : List Char → List Char → Bool
  | [], _ => true
  | _ :: _, [] => false
  | p :: ps, c :: cs => p == c && listStartsWith ps cs

/-- Does `pat` occur as a contiguous run inside `s`? -/
def listContainsSeq (pat : List Char) : List Char → Bool
  | [] => pat.isEmpty
  | c :: cs => listStartsWith pat (c :: cs) || listContainsSeq pat cs

/-- `s.includes(pat)`. -/
def jsIncludes (s pat : String) : Bool := listContainsSeq pat.data s.data

/-- The credentials provider's payment-methods response envelope. -/
def cpPaymentMethodsMessage (env : AgentEnv) (msg : A2AMessage) : A2AMessage :=
  addData
    (addText (setContextId (newA2AMessage env.msgId env.ts) msg.context_id)
      "Here are your available payment methods from your wallet.")
    "payment_methods" (.jarr (USER_PAYMENT_METHODS.map paymentMethodToJson))

/-- The credentials provider's payment-initiation acknowledgment
envelope. -/
def cpPaymentReadyMessage (env : AgentEnv) (msg : A2AMessage) : A2AMessage :=
  addData
    (addText (setContextId (newA2AMessage env.msgId env.ts) msg.context_id)
      "Payment mandate received and verified.")
    "payment_status" (.jstr "ready")

/-- The credentials provider's unknown-action envelope. -/
def cpUnknownActionMessage (env : AgentEnv) (msg : A2AMessage) : A2AMessage :=
  addText (setContextId (newA2AMessage env.msgId env.ts) msg.context_id)
    "Unknown action requested."

/-- The Credentials Provider handler (the whole `handler` of
`credentials-provider.ts`): reject non-POST, reject an untrusted
`shopping_agent_id`, then dispatch — the payment-methods branch fires when
`action === "get_payment_methods"` **or** the lower-cased concatenated text
contains `"payment method"`, and is checked before
`action === "initiate_payment"`; that branch throws (caught as a 500) when
no truthy `ap2.mandates.PaymentMandate` data part is present. -/
def credentialsProviderHandler (method : String) (env : AgentEnv) (msg : A2AMessage) : AgentResult :=
  if method ≠ "POST" then .methodNotAllowed
  else if !isStrVal (extractDataFromMessage msg "shopping_agent_id") "trusted_shopping_agent" then
    .unauthorized
  else
    let text := extractTextFromMessage msg
    let action := extractDataFromMessage msg "action"
    if isStrVal action "get_payment_methods" || jsIncludes (jsToLower text) "payment method" then
      .completed ("task-" ++ natDecimal env.nowMs) (cpPaymentMethodsMessage env msg)
    else if isStrVal action "initiate_payment" then
      match extractDataFromMessage msg "ap2.mandates.PaymentMandate" with
      | none => .serverError "Payment mandate required for payment initiation"
      | some _ => .completed ("task-" ++ natDecimal env.nowMs) (cpPaymentReadyMessage env msg)
    else
      .completed ("task-" ++ natDecimal env.nowMs) (cpUnknownActionMessage env msg)

/-- `intentMandate?.natural_language_description || ""` on the extracted
intent-mandate data part (non-string truthy values are coerced by
`jsDisplay`, which this code never exercises). -/
def extractIntentDescription (msg : A2AMessage) : String :=
  match extractDataFromMessage msg "ap2.mandates.IntentMandate" with
  | some im =>
    match jget im "natural_language_description" with
    | some v => if truthy v then jsDisplay (some v) else ""
    | none => ""
  | none => ""

/-- The merchant's `cartContents` literal for one matched product: fresh
`cart-${Date.now()}-${random}` id, fixed merchant name, two-hour cart
expiry, the product image, and a payment request whose display items split
the catalog price 85% (package) / 5% (insurance) / 10% (service fee) and
whose total is the catalog price itself.  JS multiplies in binary64; this
model multiplies exactly (see `cartDisplayValuesB64` for the rounding
model). -/
def buildCartContents (product : VacationPackage) (nowMs : Nat) (rand : String)
    (isoDate : Nat → String) : CartContents :=
  { id := "cart-" ++ natDecimal nowMs ++ "-" ++ rand
    user_cart_confirmation_required := true
    merchant_name := "Tropical Paradise Vacations"
    cart_expiry := isoDate (nowMs + 2 * 60 * 60 * 1000)
    image_url := product.image_url
    payment_request :=
      { method_data := [{ supported_methods := "https://www.example.com/card",
                          data := some [("supported_networks",
                            .jarr [.jstr "visa", .jstr "mastercard", .jstr "amex"])] }]
        details :=
          { id := "payment-" ++ natDecimal nowMs
            display_items :=
              [{ label := product.name,
                 amount := { currency := product.currency, value := product.price * 0.85 },
                 pending := none, refund_period := some 30 },
               { label := "Travel Insurance",
                 amount := { currency := product.currency, value := product.price * 0.05 },
                 pending := none, refund_period := none },
               { label := "Service Fee",
                 amount := { currency := product.currency, value := product.price * 0.10 },
                 pending := none, refund_period := none }]
            shipping_options := none
            total := { label := "Total Amount",
                       amount := { currency := product.currency, value := product.price },
                       pending := none, refund_period := some 30 } }
        options := some { request_payer_name := some true, request_payer_email := some true,
                          request_payer_phone := none, request_shipping := some false,
                          shipping_type := none }
        shipping_address := none } }

/-- One signed cart mandate for one matched product. -/
def buildCartMandate (secret : String) (product : VacationPackage) (nowMs nowSec : Nat)
    (rand : String) (isoDate : Nat → String) : CartMandate :=
  { contents := buildCartContents product nowMs rand isoDate
    merchant_authorization :=
      some (signCartMandate secret (cartContentsToJson (buildCartContents product nowMs rand isoDate)) nowSec) }

/-- The merchant's response envelope: a text summary and the
`cart_mandates` data part. -/
def merchantResponseMessage (env : AgentEnv) (msg : A2AMessage) (carts : List CartMandate) : A2AMessage :=
  addData
    (addText (setContextId (newA2AMessage env.msgId env.ts) msg.context_id)
      ("Found " ++ natDecimal carts.length ++ " vacation packages matching your request."))
    "cart_mandates" (.jarr (carts.map cartMandateToJson))

/-- The Merchant Agent handler: reject non-POST, reject an untrusted
`shopping_agent_id`, then consult the external matcher (a parameter — the
LLM call with its deterministic first-3 fallback) on the intent's
description, build and sign one cart mandate per matched product (each
drawing a fresh random suffix from `rands`), and answer with the
`cart_mandates` envelope. -/
def merchantHandler (method : String) (matcher : String → List VacationPackage)
    (secret : String) (rands : List String) (env : AgentEnv) (msg : A2AMessage) : AgentResult :=
  if method ≠ "POST" then .methodNotAllowed
  else if !isStrVal (extractDataFromMessage msg "shopping_agent_id") "trusted_shopping_agent" then
    .unauthorized
  else
    let matched := matcher (extractIntentDescription msg)
    let carts := (matched.zip rands).map fun pr =>
      buildCartMandate secret pr.1 env.nowMs env.nowSec pr.2 env.isoDate
    .completed ("task-" ++ natDecimal env.nowMs) (merchantResponseMessage env msg carts)

/-! ### The Shopping Agent Orchestrator (`src/pages/api/shopping-agent.ts`)

Each action branch of the handler is modelled as a function of the request
fields and of its external inputs (the conversational agent's reply, the
already-serialized history, and the peer agent's A2A response). -/

/-- `const context_id = contextId || "ctx-" + Date.now()`: the
caller-supplied context id when truthy, else a fresh one. -/
def resolveContextId (contextId : Option String) (nowMs : Nat) : String :=
  match contextId with
  | some s => if s == "" then "ctx-" ++ natDecimal nowMs else s
  | none => "ctx-" ++ natDecimal nowMs

/-- The Intent Mandate the orchestrator builds from the accumulated
conversation context (`conversationContext || message`). -/
def buildIntentMandate (conversationContext message : String) (nowMs : Nat)
    (isoDate : Nat → String) : IntentMandate :=
  { user_cart_confirmation_required := true
    natural_language_description := if conversationContext == "" then message else conversationContext
    merchants := none
    skus := none
    requires_refundability := some true
    intent_expiry := isoDate (nowMs + 24 * 60 * 60 * 1000) }

/-- The A2A envelope the orchestrator sends to the Merchant Agent. -/
def buildMerchantRequestMessage (ctx : String) (intent : IntentMandate) (msgId ts : String) : A2AMessage :=
  addData
    (addData
      (addText (setContextId (newA2AMessage msgId ts) (some ctx))
        "Find vacation packages matching user's intent")
      "ap2.mandates.IntentMandate" (intentMandateToJson intent))
    "shopping_agent_id" (.jstr "trusted_shopping_agent")

/-- The A2A envelope the orchestrator sends to the Credentials Provider. -/
def buildCpRequestMessage (ctx msgId ts : String) : A2AMessage :=
  addData
    (addData
      (addText (setContextId (newA2AMessage msgId ts) (some ctx))
        "Get available payment methods for user")
      "action" (.jstr "get_payment_methods"))
    "shopping_agent_id" (.jstr "trusted_shopping_agent")

/-- `merchantA2AResponse.parts.find(p => p.type === "data" &&
p.data.cart_mandates)?.data.cart_mandates || []` — the same
first-truthy-match loop as `extractDataFromMessage`. -/
def extractCartMandates (m : A2AMessage) : JsonValue :=
  (extractDataFromMessage m "cart_mandates").getD (.jarr [])

/-- The corresponding `payment_methods` extraction. -/
def extractPaymentMethods (m : A2AMessage) : JsonValue :=
  (extractDataFromMessage m "payment_methods").getD (.jarr [])

/-- The JSON body of a successful `search_vacations` response. -/
structure SearchVacationsResponse where
  response : String
  intent_mandate : IntentMandate
  cart_mandates : JsonValue
  context_id : String
  conversationHistory : String

/-- The JSON body of a successful `get_payment_methods` response. -/
structure GetPaymentMethodsResponse where
  payment_methods : JsonValue
  context_id : String

/-- The `search_vacations` branch: resolve the context id, build the
Intent Mandate, build the merchant envelope (first component), and produce
the response body (second component) from the merchant's A2A reply. -/
def shoppingSearchVacations (contextId : Option String) (message : String)
    (aiResponse conversationContext serializedHistory : String)
    (env : AgentEnv) (merchantA2AResponse : A2AMessage) :
    A2AMessage × SearchVacationsResponse :=
  let ctx := resolveContextId contextId env.nowMs
  let intent := buildIntentMandate conversationContext message env.nowMs env.isoDate
  (buildMerchantRequestMessage ctx intent env.msgId env.ts,
   { response := aiResponse
     intent_mandate := intent
     cart_mandates := extractCartMandates merchantA2AResponse
     context_id := ctx
     conversationHistory := serializedHistory })

/-- The `get_payment_methods` branch: the credentials-provider envelope and
the response body. -/
def shoppingGetPaymentMethods (contextId : Option String) (env : AgentEnv)
    (cpA2AResponse : A2AMessage) : A2AMessage × GetPaymentMethodsResponse :=
  let ctx := resolveContextId contextId env.nowMs
  (buildCpRequestMessage ctx env.msgId env.ts,
   { payment_methods := extractPaymentMethods cpA2AResponse, context_id := ctx })

/-- The `paymentMandateContents` literal of the `create_payment_mandate`
branch: a fresh `pm-${Date.now()}-${random}` id, and the payment-details
id and total **copied verbatim** from the selected cart mandate. -/
def createPaymentMandateContents (cartMandate : CartMandate) (paymentMethod : PaymentMethod)
    (nowMs : Nat) (rand : String) (tsIso : String) : PaymentMandateContents :=
  { payment_mandate_id := "pm-" ++ natDecimal nowMs ++ "-" ++ rand
    payment_details_id := cartMandate.contents.payment_request.details.id
    payment_details_total := cartMandate.contents.payment_request.details.total
    payment_response :=
      { request_id := cartMandate.contents.payment_request.details.id
        method_name := paymentMethod.type
        details := some [("payment_method_id", .jstr paymentMethod.id)]
        shipping_address := none
        shipping_option := none
        payer_name := some "Demo User"
        payer_email := some "user@example.com"
        payer_phone := none }
    merchant_agent := cartMandate.contents.merchant_name
    timestamp := tsIso }

/-- The outcome of the `create_payment_mandate` branch: `400` when the cart
mandate or payment method is missing from `data`, else the signed mandate
and the context id. -/
inductive CreatePaymentMandateResult where
  | badRequest
  | ok (payment_mandate : PaymentMandate) (context_id : String)

/-- The `create_payment_mandate` branch of the shopping-agent handler. -/
def shoppingCreatePaymentMandate (contextId : Option String)
    (cartMandate : Option CartMandate) (paymentMethod : Option PaymentMethod)
    (secret : String) (nowMs nowSec : Nat) (rand : String) (tsIso : String) :
    CreatePaymentMandateResult :=
  match cartMandate, paymentMethod with
  | some cm, some pm =>
    let contents := createPaymentMandateContents cm pm nowMs rand tsIso
    .ok { payment_mandate_contents := contents
          user_authorization := some (signPaymentMandate secret contents nowSec) }
      (resolveContextId contextId nowMs)
  | _, _ => .badRequest

/-! ### Key-sorted normal forms (used to state canonicalization claims)

`sortJson` recursively sorts every object's field list by key; two JS
values "differ only in the ordering of their fields" exactly when their
`sortJson` normal forms coincide. -/

/-- Insert a field into a key-sorted field list. -/
def insertFieldByKey (p : String × JsonValue) : List (String × JsonValue) → List (String × JsonValue)
  | [] => [p]
  | q :: rest => if strLeb p.1 q.1 then p :: q :: rest else q :: insertFieldByKey p rest

/-- Sort a field list by key (insertion sort; stable, a permutation of the
input). -/
def sortFieldsByKey : List (String × JsonValue) → List (String × JsonValue)
  | [] => []
  | p :: rest => insertFieldByKey p (sortFieldsByKey rest)

mutual
/-- Key-sorted normal form of a JS value. -/
def sortJson : JsonValue → JsonValue
  | .jobj l => .jobj (sortFieldsByKey (sortJsonFields l))
  | .jarr xs => .jarr (sortJsonList xs)
  | .jundefined => .jundefined
  | .jnull => .jnull
  | .jbool b => .jbool b
  | .jnum q => .jnum q
  | .jstr s => .jstr s

/-- `sortJson` on every array element. -/
def sortJsonList : List JsonValue → List JsonValue
  | [] => []
  | x :: xs => sortJson x :: sortJsonList xs

/-- `sortJson` on every field value. -/
def sortJsonFields : List (String × JsonValue) → List (String × JsonValue)
  | [] => []
  | (k, v) :: rest => (k, sortJson v) :: sortJsonFields rest
end

/-- Is `k` absent from the field list's keys? -/
def keyNotIn (k : String) : List (String × JsonValue) → Bool
  | [] => true
  | (k', _) :: rest => !(k' == k) && keyNotIn k rest

mutual
/-- Well-formedness of a JS value: no object anywhere has two fields with
the same key (automatic for values of real JS objects). -/
def keysNodupV : JsonValue → Bool
  | .jobj l => keysNodupF l
  | .jarr xs => keysNodupL xs
  | _ => true

/-- `keysNodupV` on every array element. -/
def keysNodupL : List JsonValue → Bool
  | [] => true
  | x :: xs => keysNodupV x && keysNodupL xs

/-- Distinct keys at this level, and `keysNodupV` on every field value. -/
def keysNodupF : List (String × JsonValue) → Bool
  | [] => true
  | (k, v) :: rest => keyNotIn k rest && keysNodupV v && keysNodupF rest
end

/-! ### An executable IEEE-754 binary64 model

JS numbers are binary64.  A nonzero finite double is `m * 2^e` with
`2^52 ≤ |m| < 2^53`; `roundB64Rat a b` rounds the rational `a / b` to the
nearest double (ties to even), and `mulB64`/`addB64` are the IEEE
operations (exact result, then one rounding) on the normal range used here
(no overflow/underflow/NaN handling, none of which arises). -/

/-- A binary64 value `m * 2^e` (`m = 0` for zero, else `2^52 ≤ |m| < 2^53`). -/
structure B64 where
  m : Int
  e : Int
  deriving DecidableEq

/-- Round the nonnegative rational `n / d` (with `d ≠ 0`) to 53 significant
bits, round-to-nearest ties-to-even. -/
def roundPosB64 (n d : Nat) : B64 :=
  if n = 0 then ⟨0, 0⟩ else
  let E0 : Int := (natLog2 n : Int) - (natLog2 d : Int)
  let ge : Int → Bool := fun E =>
    if 0 ≤ E then decide (d * 2 ^ E.toNat ≤ n) else decide (d ≤ n * 2 ^ (-E).toNat)
  let E : Int := if ge E0 then E0 else E0 - 1
  let s : Int := 52 - E
  let num := if 0 ≤ s then n * 2 ^ s.toNat else n
  let den := if 0 ≤ s then d else d * 2 ^ (-s).toNat
  let q := num / den
  let r := num % den
  let M := if 2 * r < den then q else if den < 2 * r then q + 1
           else if q % 2 = 0 then q else q + 1
  if M = 2 ^ 53 then ⟨2 ^ 52, E - 51⟩ else ⟨(M : Int), E - 52⟩

/-- Round the rational `a / b` (with `b ≠ 0`) to binary64. -/
def roundB64Rat (a : Int) (b : Nat) : B64 :=
  let x := roundPosB64 a.natAbs b
  if a < 0 then ⟨-x.m, x.e⟩ else x

/-- Round `v * 2^e` to binary64. -/
def roundB64Scaled (v : Int) (e : Int) : B64 :=
  if 0 ≤ e then roundB64Rat (v * 2 ^ e.toNat) 1 else roundB64Rat v (2 ^ (-e).toNat)

/-- IEEE binary64 multiplication. -/
def mulB64 (x y : B64) : B64 := roundB64Scaled (x.m * y.m) (x.e + y.e)

/-- IEEE binary64 addition. -/
def addB64 (x y : B64) : B64 :=
  let e := min x.e y.e
  roundB64Scaled (x.m * 2 ^ (x.e - e).toNat + y.m * 2 ^ (y.e - e).toNat) e

/-- The rational value of a binary64 value. -/
def B64.toRat (x : B64) : Rat := (x.m : Rat) * (2 : Rat) ^ x.e

/-- The three display-item amounts of the merchant's cart as the source's
JS arithmetic actually computes them: `price * 0.85`, `price * 0.05`,
`price * 0.10` in binary64 (the literals `0.85`, `0.05`, `0.10` are
themselves the doubles nearest those decimals). -/
def cartDisplayValuesB64 (price : B64) : List B64 :=
  [mulB64 price (roundB64Rat 85 100),
   mulB64 price (roundB64Rat 5 100),
   mulB64 price (roundB64Rat 10 100)]

/-- Left-to-right binary64 sum (`a + b + c` associates left in JS). -/
def sumB64 : List B64 → B64
  | [] => ⟨0, 0⟩
  | x :: xs => xs.foldl addB64 x

mutual
/-- Decidable equality of JS values (the stock deriving handler does not
support this nested inductive). -/
def decEqJson : (a b : JsonValue) → Decidable (a = b)
  | .jundefined, .jundefined => isTrue rfl
  | .jnull, .jnull => isTrue rfl
  | .jbool a, .jbool b =>
    match decEq a b with
    | isTrue h => isTrue (by rw [h])
    | isFalse h => isFalse (fun hh => h (by injection hh))
  | .jnum a, .jnum b =>
    match decEq a b with
    | isTrue h => isTrue (by rw [h])
    | isFalse h => isFalse (fun hh => h (by injection hh))
  | .jstr a, .jstr b =>
    match decEq a b with
    | isTrue h => isTrue (by rw [h])
    | isFalse h => isFalse (fun hh => h (by injection hh))
  | .jarr xs, .jarr ys =>
    match decEqJsonList xs ys with
    | isTrue h => isTrue (by rw [h])
    | isFalse h => isFalse (fun hh => h (by injection hh))
  | .jobj l1, .jobj l2 =>
    match decEqJsonFields l1 l2 with
    | isTrue h => isTrue (by rw [h])
    | isFalse h => isFalse (fun hh => h (by injection hh))
  | .jundefined, .jnull | .jundefined, .jbool _ | .jundefined, .jnum _ | .jundefined, .jstr _
  | .jundefined, .jarr _ | .jundefined, .jobj _
  | .jnull, .jundefined | .jnull, .jbool _ | .jnull, .jnum _ | .jnull, .jstr _
  | .jnull, .jarr _ | .jnull, .jobj _
  | .jbool _, .jundefined | .jbool _, .jnull | .jbool _, .jnum _ | .jbool _, .jstr _
  | .jbool _, .jarr _ | .jbool _, .jobj _
  | .jnum _, .jundefined | .jnum _, .jnull | .jnum _, .jbool _ | .jnum _, .jstr _
  | .jnum _, .jarr _ | .jnum _, .jobj _
  | .jstr _, .jundefined | .jstr _, .jnull | .jstr _, .jbool _ | .jstr _, .jnum _
  | .jstr _, .jarr _ | .jstr _, .jobj _
  | .jarr _, .jundefined | .jarr _, .jnull | .jarr _, .jbool _ | .jarr _, .jnum _
  | .jarr _, .jstr _ | .jarr _, .jobj _
  | .jobj _, .jundefined | .jobj _, .jnull | .jobj _, .jbool _ | .jobj _, .jnum _
  | .jobj _, .jstr _ | .jobj _, .jarr _ => isFalse (by intro h; exact JsonValue.noConfusion h)

/-- Decidable equality of JS value lists. -/
def decEqJsonList : (xs ys : List JsonValue) → Decidable (xs = ys)
  | [], [] => isTrue rfl
  | [], _ :: _ => isFalse (by intro h; exact List.noConfusion h)
  | _ :: _, [] => isFalse (by intro h; exact List.noConfusion h)
  | x :: xs, y :: ys =>
    match decEqJson x y, decEqJsonList xs ys with
    | isTrue h1, isTrue h2 => isTrue (by rw [h1, h2])
    | isFalse h1, _ => isFalse (fun hh => h1 (by injection hh))
    | _, isFalse h2 => isFalse (fun hh => h2 (by injection hh))

/-- Decidable equality of JS object field lists. -/
def decEqJsonFields : (l1 l2 : List (String × JsonValue)) → Decidable (l1 = l2)
  | [], [] => isTrue rfl
  | [], _ :: _ => isFalse (by intro h; exact List.noConfusion h)
  | _ :: _, [] => isFalse (by intro h; exact List.noConfusion h)
  | (k1, v1) :: r1, (k2, v2) :: r2 =>
    match decEq k1 k2, decEqJson v1 v2, decEqJsonFields r1 r2 with
    | isTrue h1, isTrue h2, isTrue h3 => isTrue (by rw [h1, h2, h3])
    | isFalse h1, _, _ => isFalse (fun hh => h1 (by cases hh; rfl))
    | _, isFalse h2, _ => isFalse (fun hh => h2 (by cases hh; rfl))
    | _, _, isFalse h3 => isFalse (fun hh => h3 (by cases hh; rfl))
end

instance : DecidableEq JsonValue := decEqJson

deriving instance DecidableEq for Part
deriving instance DecidableEq for A2AMessage
deriving instance DecidableEq for AgentResult
deriving instance DecidableEq for PaymentCurrencyAmount
deriving instance DecidableEq for PaymentItem
deriving instance DecidableEq for JsError

/-! ### Concrete fixtures used by counterexamples and witnesses -/

/-- A concrete merchant-shaped `CartContents` (the merchant literal at a
catalog price of 100 USD, with all amounts integral). -/
def cart100 : CartContents :=
  { id := "cart-1700000000000-abc123def"
    user_cart_confirmation_required := true
    merchant_name := "Tropical Paradise Vacations"
    cart_expiry := "2025-01-01T02:00:00.000Z"
    image_url := some "https://example.com/maldives.jpg"
    payment_request :=
      { method_data := [{ supported_methods := "https://www.example.com/card",
                          data := some [("supported_networks",
                            .jarr [.jstr "visa", .jstr "mastercard", .jstr "amex"])] }]
        details :=
          { id := "payment-1700000000000"
            display_items :=
              [{ label := "Maldives Paradise", amount := { currency := "USD", value := 85 },
                 pending := none, refund_period := some 30 },
               { label := "Travel Insurance", amount := { currency := "USD", value := 5 },
                 pending := none, refund_period := none },
               { label := "Service Fee", amount := { currency := "USD", value := 10 },
                 pending := none, refund_period := none }]
            shipping_options := none
            total := { label := "Total Amount", amount := { currency := "USD", value := 100 },
                       pending := none, refund_period := some 30 } }
        options := some { request_payer_name := some true, request_payer_email := some true,
                          request_payer_phone := none, request_shipping := some false,
                          shipping_type := none }
        shipping_address := none } }

/-- `cart100` after post-signing tampering: the nested total amount
(`payment_request.details.total.amount.value`) is changed from 100 to 1. -/
def cart100Tampered : CartContents :=
  { cart100 with
    payment_request :=
      { cart100.payment_request with
        details :=
          { cart100.payment_request.details with
            total :=
              { cart100.payment_request.details.total with
                amount := { cart100.payment_request.details.total.amount with value := 1 } } } } }

/-- Two structurally-equal JS objects that differ only in field order, at
the top level and inside a nested object. -/
def reorderedLeft : JsonValue :=
  .jobj [("beta", .jnum 2),
         ("alpha", .jobj [("y", .jstr "v"), ("x", .jnull), ("w", .jarr [.jobj [("q", .jnum 7), ("p", .jbool true)]])])]

/-- The same object with every field list reordered. -/
def reorderedRight : JsonValue :=
  .jobj [("alpha", .jobj [("w", .jarr [.jobj [("p", .jbool true), ("q", .jnum 7)]]), ("x", .jnull), ("y", .jstr "v")]),
         ("beta", .jnum 2)]

/-- An envelope whose only data part stores the falsy value `0` under
`"k"`. -/
def falsyEnvelope : A2AMessage :=
  { message_id := "msg-1", context_id := some "ctx-1", task_id := none, role := "agent",
    parts := [.data [("k", .jnum 0)]], timestamp := "t" }

/-- An envelope from an untrusted caller (its `shopping_agent_id` is
`"evil_agent"`), with an action payload attached. -/
def evilEnvelope : A2AMessage :=
  { message_id := "msg-2", context_id := some "ctx-2", task_id := none, role := "agent",
    parts := [.data [("shopping_agent_id", .jstr "evil_agent")],
              .data [("action", .jstr "get_payment_methods")]], timestamp := "t" }

/-- A trusted envelope whose `action` is `"initiate_payment"` but whose
text contains the phrase `"Payment Method"`. -/
def mixedSignalEnvelope : A2AMessage :=
  { message_id := "msg-3", context_id := some "ctx-3", task_id := none, role := "agent",
    parts := [.data [("shopping_agent_id", .jstr "trusted_shopping_agent")],
              .text "Please use my saved Payment Method now",
              .data [("action", .jstr "initiate_payment")],
              .data [("ap2.mandates.PaymentMandate", .jobj [("payment_mandate_contents", .jnull)])]],
    timestamp := "t" }

/-- A fixed environment for witness instantiations. -/
def sampleEnv : AgentEnv :=
  { nowMs := 1700000000000, nowSec := 1700000000, msgId := "msg-w", ts := "2025-01-01T00:00:00.000Z",
    isoDate := fun _ => "2025-01-01T02:00:00.000Z" }

/-- A fixed catalog package priced 100 USD. -/
def samplePackage : VacationPackage :=
  { id := "vac-001", name := "Maldives Paradise", destination := "Maldives", region := "Asia",
    activities := ["diving"], description := "A reef escape", price := 100, currency := "USD",
    duration_days := some 7, includes := none,
    image_url := some "https://example.com/maldives.jpg", available_dates := none }

/-- A fixed cart mandate built around `cart100`. -/
def sampleCartMandate : CartMandate :=
  { contents := cart100, merchant_authorization := some "token" }

/-- Does this part have no truthy value under `key` (so the
`extractDataFromMessage` loop passes over it)? -/
def partNoTruthy (key : String) : Part → Bool
  | .text _ => true
  | .data d =>
    match lookupJ key d with
    | some v => !truthy v
    | none => true

/-- A fixed intent mandate for witness instantiations. -/
def sampleIntent : IntentMandate :=
  buildIntentMandate "beach trip | with diving" "with diving" 1700000000000 (fun _ => "2025-01-02T00:00:00.000Z")

/-- A catalog package priced 19 USD (a price at which the binary64
breakdown does not sum back to the total). -/
def pkg19 : VacationPackage :=
  { id := "vac-019", name := "Budget Day Trip", destination := "Key West", region := "North America",
    activities := ["snorkeling"], description := "A short reef outing", price := 19, currency := "USD",
    duration_days := some 1, includes := none, image_url := none, available_dates := none }

/-- Is `c` a base-36 digit (`0-9a-z`)?  `Math.random().toString(36).slice(2, 11)`
only produces such characters. -/
def idSafeChar (c : Char) : Bool :=
  (48 ≤ c.toNat && c.toNat ≤ 57) || (97 ≤ c.toNat && c.toNat ≤ 122)

/-- Does `c` pass through JSON string quoting unescaped (not a control
character, not `"`, not `\`)? -/
def jsonPlainChar (c : Char) : Bool :=
  (32 ≤ c.toNat) && !(c == '"') && !(c == '\\')

/-- A fixed payment method for witness instantiations (the first entry of
`USER_PAYMENT_METHODS`). -/
def samplePm : PaymentMethod :=
  { id := "pm-001", aliasName := "Primary Visa", type := "card",
    last4 := some "4242", brand := some "Visa" }

set_option maxRecDepth 40000

/-! ## Theorems -/

/-- `isStrVal` is JS strict equality with a string: it holds exactly when
the value is that string. -/
theorem isStrVal_iff (v : Option JsonValue) (s : String) :
    isStrVal v s = true ↔ v = some (.jstr s) := by
  cases v with
  | none => simp [isStrVal]
  | some j => cases j <;> simp [isStrVal]

/-- An untrusted value makes `isStrVal` false. -/
theorem isStrVal_eq_false (v : Option JsonValue) (s : String)
    (h : v ≠ some (.jstr s)) : isStrVal v s = false := by
  cases hb : isStrVal v s with
  | false => rfl
  | true => exact absurd ((isStrVal_iff v s).mp hb) h

/-- C3: for every `create_payment_mandate` request with a selected cart
mandate and payment method, the branch succeeds and the produced
`PaymentMandateContents` carries `payment_details_total` and
`payment_details_id` copied verbatim (the same values, not recomputed) from
the selected cart's `payment_request.details`. -/
theorem createPaymentMandate_copies_cart_values (cm : CartMandate) (pm : PaymentMethod)
    (ctx : Option String) (secret : String) (nowMs nowSec : Nat) (rand tsIso : String) :
    shoppingCreatePaymentMandate ctx (some cm) (some pm) secret nowMs nowSec rand tsIso
      = .ok { payment_mandate_contents := createPaymentMandateContents cm pm nowMs rand tsIso,
              user_authorization :=
                some (signPaymentMandate secret (createPaymentMandateContents cm pm nowMs rand tsIso) nowSec) }
          (resolveContextId ctx nowMs)
    ∧ (createPaymentMandateContents cm pm nowMs rand tsIso).payment_details_total
      = cm.contents.payment_request.details.total
    ∧ (createPaymentMandateContents cm pm nowMs rand tsIso).payment_details_id
      = cm.contents.payment_request.details.id :=
  ⟨rfl, rfl, rfl⟩

/-- C5 counterexample: the code does not surface two distinguishable error
kinds.  Both an expired token and an invalid signature make `verifyJWT`
throw an error of the same single kind — a plain JS `Error` (name
`"Error"`) — so the expired and invalid-signature failures are not
distinct outcomes. -/
theorem verifyJWT_failures_share_one_kind :
    errName (verifyJWT (.error joseExpiredError))
      = errName (verifyJWT (.error joseSignatureError))
    ∧ errName (verifyJWT (.error joseSignatureError)) = some "Error" := by
  exact ⟨rfl, rfl⟩

/-- C5 amended: `verifyJWT` fails on both an invalid signature and an
expired token, but wraps both in one generic `Error` whose message embeds
the underlying jose error text (`"JWT verification failed: ..."`); the two
causes are distinguishable only by that message text, not as distinct error
kinds; success passes the payload through. -/
theorem verifyJWT_wraps_both_failures_generically :
    verifyJWT (.error joseExpiredError)
      = .error ⟨"Error", "JWT verification failed: JWTExpired: \"exp\" claim timestamp check failed"⟩
    ∧ verifyJWT (.error joseSignatureError)
      = .error ⟨"Error", "JWT verification failed: JWSSignatureVerificationFailed: signature verification failed"⟩
    ∧ verifyJWT (.error joseExpiredError) ≠ verifyJWT (.error joseSignatureError)
    ∧ (∀ p : JsonValue, verifyJWT (.ok p) = .ok p) := by
  refine ⟨rfl, rfl, ?_, fun _ => rfl⟩
  intro h
  have h2 := congrArg (fun x : Except JsError JsonValue =>
    match x with
    | .error e => e.message
    | .ok _ => "") h
  simp only [verifyJWT, jsErrorDisplay, joseExpiredError, joseSignatureError] at h2
  exact absurd h2 (by decide)

/-- C4: an envelope whose `shopping_agent_id` (as the first-truthy-match
data lookup yields it, including the no-such-part case) is not the trusted
constant is rejected by both the Merchant Agent and the Credentials
Provider with the 401 unauthorized response, whatever the matcher, secret,
randomness, environment and remaining payload; the 401 result carries no
carts and no payment methods (it is the bare `unauthorized` response). -/
theorem untrusted_caller_always_rejected (msg : A2AMessage)
    (h : extractDataFromMessage msg "shopping_agent_id" ≠ some (.jstr "trusted_shopping_agent")) :
    ∀ (matcher : String → List VacationPackage) (secret : String) (rands : List String)
      (env env2 : AgentEnv),
      merchantHandler "POST" matcher secret rands env msg = .unauthorized
      ∧ credentialsProviderHandler "POST" env2 msg = .unauthorized
      ∧ statusOf (merchantHandler "POST" matcher secret rands env msg) = 401
      ∧ statusOf (credentialsProviderHandler "POST" env2 msg) = 401 := by
  intro matcher secret rands env env2
  have hf := isStrVal_eq_false _ _ h
  refine ⟨?_, ?_, ?_, ?_⟩ <;>
    simp [merchantHandler, credentialsProviderHandler, hf, statusOf]

/-- C4 witness at a concrete untrusted envelope. -/
theorem untrusted_caller_always_rejected_witness :
    merchantHandler "POST" (fun _ => [samplePackage]) "s3cret" ["r1"] sampleEnv evilEnvelope
      = .unauthorized
    ∧ credentialsProviderHandler "POST" sampleEnv evilEnvelope = .unauthorized :=
  ⟨(untrusted_caller_always_rejected evilEnvelope (by decide)
      (fun _ => [samplePackage]) "s3cret" ["r1"] sampleEnv sampleEnv).1,
   (untrusted_caller_always_rejected evilEnvelope (by decide)
      (fun _ => [samplePackage]) "s3cret" ["r1"] sampleEnv sampleEnv).2.1⟩

/-- C10: for every authorized envelope whose `action` data part is
`"initiate_payment"` but whose lower-cased concatenated text contains
`"payment method"`, the Credentials Provider answers with the
payment-methods envelope (the text-based `get_payment_methods` dispatch is
checked before the `initiate_payment` action), and that envelope carries
the wallet's payment-methods data part, not a payment-status part. -/
theorem text_dispatch_precedes_initiate_payment (env : AgentEnv) (msg : A2AMessage)
    (hauth : extractDataFromMessage msg "shopping_agent_id" = some (.jstr "trusted_shopping_agent"))
    (haction : extractDataFromMessage msg "action" = some (.jstr "initiate_payment"))
    (htext : jsIncludes (jsToLower (extractTextFromMessage msg)) "payment method" = true) :
    credentialsProviderHandler "POST" env msg
      = .completed ("task-" ++ natDecimal env.nowMs) (cpPaymentMethodsMessage env msg)
    ∧ (cpPaymentMethodsMessage env msg).parts
      = [.text "Here are your available payment methods from your wallet.",
         .data [("payment_methods", .jarr (USER_PAYMENT_METHODS.map paymentMethodToJson))]] := by
  constructor
  · have ht : isStrVal (extractDataFromMessage msg "shopping_agent_id") "trusted_shopping_agent" = true :=
      (isStrVal_iff _ _).mpr hauth
    simp [credentialsProviderHandler, ht, htext]
  · simp [cpPaymentMethodsMessage, addData, addText, setContextId, newA2AMessage]

/-- C10 witness at a concrete mixed-signal envelope. -/
theorem text_dispatch_precedes_initiate_payment_witness :
    credentialsProviderHandler "POST" sampleEnv mixedSignalEnvelope
      = .completed ("task-" ++ natDecimal sampleEnv.nowMs) (cpPaymentMethodsMessage sampleEnv mixedSignalEnvelope) :=
  (text_dispatch_precedes_initiate_payment sampleEnv mixedSignalEnvelope
    (by decide) (by decide) (by decide)).1

/-- C8 counterexample: `falsyEnvelope`'s only data part stores the value
`0` under `"k"`, yet `extractDataFromMessage` returns `null` for `"k"` —
it does not return the stored falsy value, refuting the claim's
falsy-value case. -/
theorem extractData_drops_falsy_value :
    falsyEnvelope.parts = [.data [("k", .jnum 0)]]
    ∧ lookupJ "k" [("k", JsonValue.jnum 0)] = some (.jnum 0)
    ∧ extractDataFromMessage falsyEnvelope "k" = none := by
  exact ⟨rfl, by decide, by decide⟩

/-- C8 amended: `extractDataFromMessage` returns the value stored under the
key in the first (in part order) data part whose value under the key is
**truthy**, and `null` when no data part holds a truthy value under the key
— falsy stored values (`0`, `false`, `""`, `null`, `undefined`) are passed
over. -/
theorem extractData_first_truthy_match (key : String) :
    (∀ (msgId : String) (ctx task : Option String) (role ts : String)
       (pre : List Part) (d : List (String × JsonValue)) (post : List Part) (v : JsonValue),
      (∀ p ∈ pre, partNoTruthy key p = true) →
      lookupJ key d = some v → truthy v = true →
      extractDataFromMessage ⟨msgId, ctx, task, role, pre ++ .data d :: post, ts⟩ key = some v)
    ∧ (∀ (msgId : String) (ctx task : Option String) (role ts : String) (parts : List Part),
      (∀ p ∈ parts, partNoTruthy key p = true) →
      extractDataFromMessage ⟨msgId, ctx, task, role, parts, ts⟩ key = none) := by
  constructor
  · intro msgId ctx task role ts pre d post v hpre hd hv
    simp only [extractDataFromMessage]
    induction pre with
    | nil => simp [extractDataAux, hd, hv]
    | cons p rest ih =>
      have hp := hpre p (List.mem_cons_self p rest)
      have hrest : ∀ q ∈ rest, partNoTruthy key q = true :=
        fun q hq => hpre q (List.mem_cons_of_mem p hq)
      cases p with
      | text t => simpa [extractDataAux] using ih hrest
      | data pd =>
        simp only [partNoTruthy] at hp
        simp only [List.cons_append, extractDataAux]
        cases hld : lookupJ key pd with
        | none => simpa [hld] using ih hrest
        | some w =>
          rw [hld] at hp
          simp only [Bool.not_eq_true'] at hp
          simpa [hp] using ih hrest
  · intro msgId ctx task role ts parts hparts
    simp only [extractDataFromMessage]
    induction parts with
    | nil => rfl
    | cons p rest ih =>
      have hp := hparts p (List.mem_cons_self p rest)
      have hrest : ∀ q ∈ rest, partNoTruthy key q = true :=
        fun q hq => hparts q (List.mem_cons_of_mem p hq)
      cases p with
      | text t => simpa [extractDataAux] using ih hrest
      | data pd =>
        simp only [partNoTruthy] at hp
        simp only [extractDataAux]
        cases hld : lookupJ key pd with
        | none => simpa [hld] using ih hrest
        | some w =>
          rw [hld] at hp
          simp only [Bool.not_eq_true'] at hp
          simpa [hp] using ih hrest

/-- C8 amended witness: the truthy value in the second data part is found
even though the first data part stores a falsy value under the same key,
and a parts list with only falsy bindings yields `null`. -/
theorem extractData_first_truthy_match_witness :
    extractDataFromMessage
      ⟨"m", some "c", none, "agent",
        [.text "hi", .data [("k", .jnum 0)], .data [("k", .jstr "val")], .data [("k", .jstr "later")]], "t"⟩
      "k" = some (.jstr "val")
    ∧ extractDataFromMessage ⟨"m", none, none, "agent", [.data [("k", .jbool false)]], "t"⟩ "k" = none :=
  ⟨(extractData_first_truthy_match "k").1 "m" (some "c") none "agent" "t"
      [.text "hi", .data [("k", .jnum 0)]] [("k", .jstr "val")] [.data [("k", .jstr "later")]]
      (.jstr "val") (by decide) (by decide) (by decide),
   (extractData_first_truthy_match "k").2 "m" none none "agent" "t"
      [.data [("k", .jbool false)]] (by decide)⟩

/-- C9: session context-id threading.  (1) A truthy caller-supplied
`contextId` is kept, (2) an absent one is replaced by a fresh
`ctx-${Date.now()}`, (3,4) both orchestrator-built envelopes carry the
resolved context id, (5,6) the `search_vacations` and
`get_payment_methods` branches put that same resolved id on their outgoing
envelope and on the HTTP response body, (7,8) both peer agents echo the
incoming envelope's `context_id` unchanged on every `completed` response
envelope, and (9) two cart-mandate requests with the same supplied session
id produce outgoing envelopes with the same `context_id`. -/
theorem context_id_threading :
    (∀ (c : String) (nowMs : Nat), c ≠ "" → resolveContextId (some c) nowMs = c)
    ∧ (∀ nowMs : Nat, resolveContextId none nowMs = "ctx-" ++ natDecimal nowMs)
    ∧ (∀ (ctx : String) (intent : IntentMandate) (msgId ts : String),
        (buildMerchantRequestMessage ctx intent msgId ts).context_id = some ctx)
    ∧ (∀ ctx msgId ts : String, (buildCpRequestMessage ctx msgId ts).context_id = some ctx)
    ∧ (∀ (contextId : Option String) (message aiR convC hist : String) (env : AgentEnv)
         (mResp : A2AMessage),
        (shoppingSearchVacations contextId message aiR convC hist env mResp).1.context_id
          = some (resolveContextId contextId env.nowMs)
        ∧ (shoppingSearchVacations contextId message aiR convC hist env mResp).2.context_id
          = resolveContextId contextId env.nowMs)
    ∧ (∀ (contextId : Option String) (env : AgentEnv) (cpResp : A2AMessage),
        (shoppingGetPaymentMethods contextId env cpResp).1.context_id
          = some (resolveContextId contextId env.nowMs)
        ∧ (shoppingGetPaymentMethods contextId env cpResp).2.context_id
          = resolveContextId contextId env.nowMs)
    ∧ (∀ (env : AgentEnv) (msg : A2AMessage) (tid : String) (res : A2AMessage),
        credentialsProviderHandler "POST" env msg = .completed tid res →
        res.context_id = msg.context_id)
    ∧ (∀ (method : String) (matcher : String → List VacationPackage) (secret : String)
         (rands : List String) (env : AgentEnv) (msg : A2AMessage) (tid : String) (res : A2AMessage),
        merchantHandler method matcher secret rands env msg = .completed tid res →
        res.context_id = msg.context_id)
    ∧ (∀ (c : String), c ≠ "" →
        ∀ (m1 a1 cc1 h1 m2 a2 cc2 h2 : String) (env1 env2 : AgentEnv) (r1 r2 : A2AMessage),
        (shoppingSearchVacations (some c) m1 a1 cc1 h1 env1 r1).1.context_id
          = (shoppingSearchVacations (some c) m2 a2 cc2 h2 env2 r2).1.context_id) := by
  have hres : ∀ (c : String) (nowMs : Nat), c ≠ "" → resolveContextId (some c) nowMs = c := by
    intro c nowMs hc
    simp [resolveContextId, hc]
  refine ⟨hres, fun _ => rfl, fun _ _ _ _ => rfl, fun _ _ _ => rfl, ?_, ?_, ?_, ?_, ?_⟩
  · intro contextId message aiR convC hist env mResp
    exact ⟨rfl, rfl⟩
  · intro contextId env cpResp
    exact ⟨rfl, rfl⟩
  · intro env msg tid res h
    simp only [credentialsProviderHandler] at h
    split at h
    · exact absurd h (by simp)
    · split at h
      · exact absurd h (by simp)
      · split at h
        · injection h with h1 h2
          subst h2
          simp [cpPaymentMethodsMessage, addData, addText, setContextId, newA2AMessage]
        · split at h
          · split at h
            · exact absurd h (by simp)
            · injection h with h1 h2
              subst h2
              simp [cpPaymentReadyMessage, addData, addText, setContextId, newA2AMessage]
          · injection h with h1 h2
            subst h2
            simp [cpUnknownActionMessage, addText, setContextId, newA2AMessage]
  · intro method matcher secret rands env msg tid res h
    simp only [merchantHandler] at h
    split at h
    · exact absurd h (by simp)
    · split at h
      · exact absurd h (by simp)
      · injection h with h1 h2
        subst h2
        simp [merchantResponseMessage, addData, addText, setContextId, newA2AMessage]
  · intro c hc m1 a1 cc1 h1 m2 a2 cc2 h2 env1 env2 r1 r2
    show (buildMerchantRequestMessage _ _ _ _).context_id = (buildMerchantRequestMessage _ _ _ _).context_id
    simp only [buildMerchantRequestMessage, addData, addText, setContextId, newA2AMessage]
    rw [hres c env1.nowMs hc, hres c env2.nowMs hc]

/-- C9 witness: a concrete session id is threaded into both outgoing
envelopes and echoed by the credentials provider on a concrete call. -/
theorem context_id_threading_witness :
    resolveContextId (some "sess-1") 5 = "sess-1"
    ∧ (buildMerchantRequestMessage "sess-1" sampleIntent "m" "t").context_id = some "sess-1"
    ∧ (buildCpRequestMessage "sess-1" "m" "t").context_id = some "sess-1"
    ∧ (cpPaymentMethodsMessage sampleEnv mixedSignalEnvelope).context_id
      = mixedSignalEnvelope.context_id :=
  ⟨context_id_threading.1 "sess-1" 5 (by decide),
   context_id_threading.2.2.1 "sess-1" sampleIntent "m" "t",
   context_id_threading.2.2.2.1 "sess-1" "m" "t",
   context_id_threading.2.2.2.2.2.2.1 sampleEnv mixedSignalEnvelope
     ("task-" ++ natDecimal sampleEnv.nowMs) (cpPaymentMethodsMessage sampleEnv mixedSignalEnvelope)
     (by decide)⟩

/-- C7 counterexample: at catalog price 19 the source's binary64 arithmetic
(`price * 0.85`, `price * 0.05`, `price * 0.10`, then summation) yields
`18.999999999999996` — one unit in the last place below the exact total 19
that the cart stores — so the claim's "line-item amounts sum exactly to the
total" fails on the code's JS-number semantics at this concrete catalog
item. -/
theorem cart_breakdown_b64_sum_not_exact :
    sumB64 (cartDisplayValuesB64 (roundB64Rat 19 1)) = ⟨5348024557502463, -48⟩
    ∧ roundB64Rat 19 1 = ⟨5348024557502464, -48⟩
    ∧ (sumB64 (cartDisplayValuesB64 (roundB64Rat 19 1))).toRat ≠ (roundB64Rat 19 1).toRat
    ∧ (buildCartContents pkg19 0 "r" (fun _ => "e")).payment_request.details.total.amount.value = 19 := by
  refine ⟨by decide, by decide, ?_, rfl⟩
  rw [show sumB64 (cartDisplayValuesB64 (roundB64Rat 19 1)) = ⟨5348024557502463, -48⟩ by decide,
      show roundB64Rat 19 1 = ⟨5348024557502464, -48⟩ by decide]
  simp only [B64.toRat]
  intro h
  have h2 := mul_right_cancel₀ (zpow_ne_zero (-48 : Int) (by norm_num : (2 : Rat) ≠ 0)) h
  exact absurd h2 (by norm_num)

/-- C7 amended: for every matched catalog item, the merchant's cart has
total equal to the catalog price (hence positive for a positive price) in
the item's currency, and exactly three display items — the package at 85%,
travel insurance at 5% and a service fee at 10% of the price, as the
source's expressions `price * 0.85 / 0.05 / 0.10` denote — whose amounts
sum to the total in exact (rational) arithmetic; under the code's binary64
evaluation of those same expressions the stored amounts can instead differ
from the total by a final rounding (see
`cart_breakdown_b64_sum_not_exact`). -/
theorem merchant_cart_breakdown (p : VacationPackage) (nowMs : Nat) (rand : String)
    (isoDate : Nat → String) (hp : 0 < p.price) :
    (buildCartContents p nowMs rand isoDate).payment_request.details.total.amount.value = p.price
    ∧ (buildCartContents p nowMs rand isoDate).payment_request.details.total.amount.currency = p.currency
    ∧ 0 < (buildCartContents p nowMs rand isoDate).payment_request.details.total.amount.value
    ∧ ((buildCartContents p nowMs rand isoDate).payment_request.details.display_items.map PaymentItem.label)
      = [p.name, "Travel Insurance", "Service Fee"]
    ∧ ((buildCartContents p nowMs rand isoDate).payment_request.details.display_items.map
        fun it => it.amount.value)
      = [p.price * 0.85, p.price * 0.05, p.price * 0.10]
    ∧ p.price * 0.85 + p.price * 0.05 + p.price * 0.10
      = (buildCartContents p nowMs rand isoDate).payment_request.details.total.amount.value := by
  refine ⟨rfl, rfl, hp, rfl, rfl, ?_⟩
  show p.price * 0.85 + p.price * 0.05 + p.price * 0.10 = p.price
  norm_num
  ring

/-- C7 amended witness at the 100-USD sample package. -/
theorem merchant_cart_breakdown_witness :
    (buildCartContents samplePackage 1700000000000 "abc123def"
      (fun _ => "2025-01-01T02:00:00.000Z")).payment_request.details.total.amount.value
      = samplePackage.price
    ∧ 0 < (buildCartContents samplePackage 1700000000000 "abc123def"
        (fun _ => "2025-01-01T02:00:00.000Z")).payment_request.details.total.amount.value :=
  ⟨(merchant_cart_breakdown samplePackage 1700000000000 "abc123def"
      (fun _ => "2025-01-01T02:00:00.000Z") (by decide)).1,
   (merchant_cart_breakdown samplePackage 1700000000000 "abc123def"
      (fun _ => "2025-01-01T02:00:00.000Z") (by decide)).2.2.1⟩

/-- C1 (code bug): post-signing tampering of a nested field is **not**
detectable.  `hashObject` serializes with
`JSON.stringify(obj, Object.keys(obj).sort())`, and an array replacer
filters the keys of objects at **every** depth to the top-level key set —
so everything inside `payment_request` (whose keys `method_data`,
`details`, … are not top-level cart keys) is dropped from the canonical
text, which contains only `"payment_request":{}`.  Changing the nested
total from 100 to 1 therefore leaves the digest — and hence the `cart_hash`
embedded by `signCartMandate` — unchanged: the recomputed digest over the
tampered contents still equals the embedded digest, contradicting the
spec's tamper-evidence requirement. -/
theorem hashObject_misses_nested_tampering :
    cart100.payment_request.details.total.amount.value = 100
    ∧ cart100Tampered.payment_request.details.total.amount.value = 1
    ∧ cartContentsToJson cart100 ≠ cartContentsToJson cart100Tampered
    ∧ (cartMandatePayload (cartContentsToJson cart100) 1700000000).cart_hash
      = hashObject (cartContentsToJson cart100Tampered)
    ∧ canonicalJson (cartContentsToJson cart100)
      = "\x7b\"cart_expiry\":\"2025-01-01T02:00:00.000Z\",\"id\":\"cart-1700000000000-abc123def\",\"image_url\":\"https://example.com/maldives.jpg\",\"merchant_name\":\"Tropical Paradise Vacations\",\"payment_request\":\x7b\x7d,\"user_cart_confirmation_required\":true\x7d" := by
  refine ⟨rfl, rfl, by decide, ?_, by decide⟩
  show hashObject (cartContentsToJson cart100) = hashObject (cartContentsToJson cart100Tampered)
  exact congrArg sha256hex (by decide :
    canonicalJson (cartContentsToJson cart100) = canonicalJson (cartContentsToJson cart100Tampered))

/-- `Char.toNat` is injective. -/
theorem charToNat_inj {a b : Char} (h : a.toNat = b.toNat) : a = b :=
  Char.ext (UInt32.ext h)

/-- Unfolding of `charListLeb` on two cons cells. -/
theorem charListLeb_cons (x y : Char) (xs ys : List Char) :
    charListLeb (x :: xs) (y :: ys)
      = if x.toNat < y.toNat then true
        else if y.toNat < x.toNat then false
        else charListLeb xs ys := rfl

/-- `charListLeb` is total. -/
theorem charListLeb_total : ∀ a b : List Char, charListLeb a b = true ∨ charListLeb b a = true := by
  intro a
  induction a with
  | nil => intro b; left; rfl
  | cons x xs ih =>
    intro b
    cases b with
    | nil => right; rfl
    | cons y ys =>
      rw [charListLeb_cons, charListLeb_cons]
      rcases Nat.lt_trichotomy x.toNat y.toNat with h | h | h
      · left; rw [if_pos h]
      · rw [if_neg (by omega), if_neg (by omega), if_neg (by omega), if_neg (by omega)]
        exact ih ys
      · right; rw [if_pos h]

/-- `charListLeb` is transitive. -/
theorem charListLeb_trans : ∀ a b c : List Char,
    charListLeb a b = true → charListLeb b c = true → charListLeb a c = true := by
  intro a
  induction a with
  | nil => intro b c _ _; rfl
  | cons x xs ih =>
    intro b c hab hbc
    cases b with
    | nil => exact absurd hab (by simp [charListLeb])
    | cons y ys =>
      cases c with
      | nil => exact absurd hbc (by simp [charListLeb])
      | cons z zs =>
        rw [charListLeb_cons] at hab hbc ⊢
        rcases Nat.lt_trichotomy x.toNat y.toNat with hxy | hxy | hxy <;>
          rcases Nat.lt_trichotomy y.toNat z.toNat with hyz | hyz | hyz
        · rw [if_pos (by omega)]
        · rw [if_pos (by omega)]
        · rw [if_neg (by omega), if_pos (by omega)] at hbc
          exact absurd hbc (by simp)
        · rw [if_pos (by omega)]
        · rw [if_neg (by omega), if_neg (by omega)] at hab hbc ⊢
          exact ih ys zs hab hbc
        · rw [if_neg (by omega), if_pos (by omega)] at hbc
          exact absurd hbc (by simp)
        · rw [if_neg (by omega), if_pos (by omega)] at hab
          exact absurd hab (by simp)
        · rw [if_neg (by omega), if_pos (by omega)] at hab
          exact absurd hab (by simp)
        · rw [if_neg (by omega), if_pos (by omega)] at hab
          exact absurd hab (by simp)

/-- `charListLeb` is antisymmetric. -/
theorem charListLeb_antisymm : ∀ a b : List Char,
    charListLeb a b = true → charListLeb b a = true → a = b := by
  intro a
  induction a with
  | nil =>
    intro b _ hba
    cases b with
    | nil => rfl
    | cons y ys => exact absurd hba (by simp [charListLeb])
  | cons x xs ih =>
    intro b hab hba
    cases b with
    | nil => exact absurd hab (by simp [charListLeb])
    | cons y ys =>
      rw [charListLeb_cons] at hab hba
      rcases Nat.lt_trichotomy x.toNat y.toNat with hxy | hxy | hxy
      · rw [if_neg (by omega), if_pos (by omega)] at hba
        exact absurd hba (by simp)
      · rw [if_neg (by omega), if_neg (by omega)] at hab hba
        rw [charToNat_inj hxy, ih ys hab hba]
      · rw [if_neg (by omega), if_pos (by omega)] at hab
        exact absurd hab (by simp)

/-- `strLe` holds or its flip does. -/
theorem strLe_total (a b : String) : strLe a b ∨ strLe b a := charListLeb_total a.data b.data

/-- `strLe` is transitive. -/
theorem strLe_trans {a b c : String} (h1 : strLe a b) (h2 : strLe b c) : strLe a c :=
  charListLeb_trans a.data b.data c.data h1 h2

/-- `strLe` is antisymmetric. -/
theorem strLe_antisymm {a b : String} (h1 : strLe a b) (h2 : strLe b a) : a = b := by
  cases a with
  | mk da =>
    cases b with
    | mk db => exact congrArg String.mk (charListLeb_antisymm da db h1 h2)

/-- Sorting a key list is invariant under permutation of the input. -/
theorem sortKeys_eq_of_perm {l1 l2 : List String} (h : l1.Perm l2) :
    sortKeys l1 = sortKeys l2 := by
  haveI : IsTotal String strLe := ⟨strLe_total⟩
  haveI : IsTrans String strLe := ⟨fun _ _ _ => strLe_trans⟩
  haveI : IsAntisymm String strLe := ⟨fun _ _ => strLe_antisymm⟩
  exact List.eq_of_perm_of_sorted
    (((l1.perm_insertionSort strLe).trans h).trans (l2.perm_insertionSort strLe).symm)
    (List.sorted_insertionSort strLe l1)
    (List.sorted_insertionSort strLe l2)

/-- Inserting a field produces a permutation of consing it. -/
theorem insertFieldByKey_perm (p : String × JsonValue) :
    ∀ l : List (String × JsonValue), (insertFieldByKey p l).Perm (p :: l) := by
  intro l
  induction l with
  | nil => simp [insertFieldByKey]
  | cons q rest ih =>
    simp only [insertFieldByKey]
    split
    · exact List.Perm.refl _
    · exact (List.Perm.cons q ih).trans (List.Perm.swap p q rest)

/-- Key-sorting a field list permutes it. -/
theorem sortFieldsByKey_perm : ∀ l : List (String × JsonValue), (sortFieldsByKey l).Perm l := by
  intro l
  induction l with
  | nil => exact List.Perm.refl _
  | cons p rest ih =>
    exact (insertFieldByKey_perm p (sortFieldsByKey rest)).trans (List.Perm.cons p ih)

/-- `sortJsonFields` keeps the key list. -/
theorem sortJsonFields_keys : ∀ l : List (String × JsonValue),
    (sortJsonFields l).map Prod.fst = l.map Prod.fst := by
  intro l
  induction l with
  | nil => rfl
  | cons p rest ih =>
    cases p with
    | mk k v => simp [sortJsonFields, ih]

/-- `sortJsonList` keeps the length. -/
theorem sortJsonList_length : ∀ xs : List JsonValue, (sortJsonList xs).length = xs.length := by
  intro xs
  induction xs with
  | nil => rfl
  | cons x rest ih => simp [sortJsonList, ih]

/-- Looking up in the value-sorted field list is looking up and then
sorting. -/
theorem lookupJ_sortJsonFields (k : String) : ∀ l : List (String × JsonValue),
    lookupJ k (sortJsonFields l) = (lookupJ k l).map sortJson := by
  intro l
  induction l with
  | nil => rfl
  | cons p rest ih =>
    cases p with
    | mk k' v =>
      simp only [sortJsonFields, lookupJ]
      split
      · rfl
      · exact ih

/-- Lookup is invariant under permutation when the keys are distinct. -/
theorem lookupJ_perm (k : String) : ∀ {l1 l2 : List (String × JsonValue)},
    l1.Perm l2 → (l1.map Prod.fst).Nodup → lookupJ k l1 = lookupJ k l2 := by
  intro l1 l2 h
  induction h with
  | nil => intro _; rfl
  | cons p h ih =>
    intro hnd
    cases p with
    | mk k' v =>
      simp only [lookupJ]
      split
      · rfl
      · exact ih (by simpa using hnd.sublist (List.sublist_cons_self _ _))
  | swap p q l =>
    intro hnd
    cases p with
    | mk kp vp =>
      cases q with
      | mk kq vq =>
        simp only [lookupJ]
        by_cases h1 : kq = k
        · by_cases h2 : kp = k
          · exfalso
            have : kq ≠ kp := by
              simp only [List.map_cons, List.nodup_cons] at hnd
              intro hh
              exact hnd.1 (by simp [hh])
            exact this (h1.trans h2.symm)
          · simp [h1, h2]
        · by_cases h2 : kp = k
          · simp [h1, h2]
          · simp [h1, h2]
  | trans h12 h23 ih12 ih23 =>
    intro hnd
    refine (ih12 hnd).trans (ih23 ?_)
    have : (List.map Prod.fst _).Perm (List.map Prod.fst _) := h12.map Prod.fst
    exact this.nodup_iff.mp hnd

/-- `keyNotIn` is key non-membership. -/
theorem keyNotIn_iff (k : String) : ∀ l : List (String × JsonValue),
    keyNotIn k l = true ↔ k ∉ l.map Prod.fst := by
  intro l
  induction l with
  | nil => simp [keyNotIn]
  | cons p rest ih =>
    cases p with
    | mk k' v =>
      simp only [keyNotIn, List.map_cons, List.mem_cons, Bool.and_eq_true, Bool.not_eq_true',
        beq_eq_false_iff_ne, ih]
      constructor
      · rintro ⟨h1, h2⟩ (h | h)
        · exact h1 h.symm
        · exact h2 h
      · intro h
        exact ⟨fun hh => h (Or.inl hh.symm), fun hh => h (Or.inr hh)⟩

/-- Well-formed field lists have distinct keys. -/
theorem keysNodupF_nodup : ∀ l : List (String × JsonValue),
    keysNodupF l = true → (l.map Prod.fst).Nodup := by
  intro l
  induction l with
  | nil => intro _; simp
  | cons p rest ih =>
    cases p with
    | mk k v =>
      intro h
      simp only [keysNodupF, Bool.and_eq_true] at h
      simp only [List.map_cons, List.nodup_cons]
      exact ⟨(keyNotIn_iff k rest).mp h.1.1, ih h.2⟩

/-- Field values of a well-formed field list are well-formed. -/
theorem keysNodupF_lookup (k : String) : ∀ (l : List (String × JsonValue)) (v : JsonValue),
    keysNodupF l = true → lookupJ k l = some v → keysNodupV v = true := by
  intro l
  induction l with
  | nil => intro v _ h; exact absurd h (by simp [lookupJ])
  | cons p rest ih =>
    cases p with
    | mk k' w =>
      intro v hnd hl
      simp only [keysNodupF, Bool.and_eq_true] at hnd
      simp only [lookupJ] at hl
      split at hl
      · cases hl; exact hnd.1.2
      · exact ih v hnd.2 hl

/-- Elements of a well-formed array are well-formed. -/
theorem keysNodupL_mem : ∀ (xs : List JsonValue) (x : JsonValue),
    keysNodupL xs = true → x ∈ xs → keysNodupV x = true := by
  intro xs
  induction xs with
  | nil => intro x _ h; cases h
  | cons y rest ih =>
    intro x h hm
    simp only [keysNodupL, Bool.and_eq_true] at h
    rcases List.mem_cons.mp hm with h1 | h1
    · cases h1; exact h.1
    · exact ih x h.2 h1

/-- Lookup in the pre-serialized field list is lookup then serialization. -/
theorem lookupSer_serializeFields (k : String) (K : Option (List String)) :
    ∀ l : List (String × JsonValue),
    lookupSer k (serializeFields K l) = (lookupJ k l).map (serializeProp K) := by
  intro l
  induction l with
  | nil => rfl
  | cons p rest ih =>
    cases p with
    | mk k' v =>
      simp only [serializeFields, lookupSer, lookupJ]
      split
      · rfl
      · exact ih

/-- A looked-up value is smaller than its field list. -/
theorem lookupJ_sizeOf (k : String) : ∀ (l : List (String × JsonValue)) (v : JsonValue),
    lookupJ k l = some v → sizeOf v < sizeOf l := by
  intro l
  induction l with
  | nil => intro v h; exact absurd h (by simp [lookupJ])
  | cons p rest ih =>
    cases p with
    | mk k' w =>
      intro v h
      simp only [lookupJ] at h
      split at h
      · cases h
        simp only [List.cons.sizeOf_spec, Prod.mk.sizeOf_spec]
        omega
      · have := ih v h
        simp only [List.cons.sizeOf_spec]
        omega

/-- JS values have positive size. -/
theorem jsonValue_sizeOf_pos (o : JsonValue) : 0 < sizeOf o := by
  cases o <;> simp

/-- `selectFields` only consults the looked-up entries of the keys it
emits. -/
theorem selectFields_congr (ks : List String) (F1 F2 : List (String × Option String))
    (h : ∀ k ∈ ks, lookupSer k F1 = lookupSer k F2) :
    selectFields (some ks) F1 = selectFields (some ks) F2 := by
  induction ks with
  | nil => rfl
  | cons k rest ih =>
    simp only [selectFields, List.filterMap_cons] at ih ⊢
    rw [h k (List.mem_cons_self k rest)]
    have ht := ih fun q hq => h q (List.mem_cons_of_mem k hq)
    split <;> rw [ht]

/-- Serialization under an array replacer depends only on the key-sorted
normal form: two well-formed JS values that differ only in field ordering
(at any depth) serialize identically under every replacer list. -/
theorem serializeProp_eq_of_sortJson_eq :
    ∀ (n : Nat) (o1 o2 : JsonValue) (K : List String), sizeOf o1 ≤ n →
      keysNodupV o1 = true → keysNodupV o2 = true → sortJson o1 = sortJson o2 →
      serializeProp (some K) o1 = serializeProp (some K) o2 := by
  intro n
  induction n with
  | zero =>
    intro o1 _ _ h
    exact absurd h (by have := jsonValue_sizeOf_pos o1; omega)
  | succ n ih =>
    intro o1 o2 K hsz h1 h2 hsort
    cases o1 with
    | jundefined =>
      cases o2 <;> simp only [sortJson] at hsort <;>
        first | rfl | exact absurd hsort (by simp)
    | jnull =>
      cases o2 <;> simp only [sortJson] at hsort <;>
        first | rfl | exact absurd hsort (by simp)
    | jbool b1 =>
      cases o2 <;> simp only [sortJson] at hsort <;>
        first
        | (injection hsort with hh; rw [hh])
        | injection hsort
    | jnum q1 =>
      cases o2 <;> simp only [sortJson] at hsort <;>
        first
        | (injection hsort with hh; rw [hh])
        | injection hsort
    | jstr s1 =>
      cases o2 <;> simp only [sortJson] at hsort <;>
        first
        | (injection hsort with hh; rw [hh])
        | injection hsort
    | jarr xs =>
      cases o2 with
      | jarr ys =>
        have hsl : sortJsonList xs = sortJsonList ys := by
          simp only [sortJson] at hsort
          injection hsort
        have hszl : sizeOf xs ≤ n := by
          simp only [JsonValue.jarr.sizeOf_spec] at hsz
          omega
        have h1l : keysNodupL xs = true := by simpa [keysNodupV] using h1
        have h2l : keysNodupL ys = true := by simpa [keysNodupV] using h2
        have aux : ∀ (xs2 ys2 : List JsonValue), sizeOf xs2 ≤ n → keysNodupL xs2 = true →
            keysNodupL ys2 = true → sortJsonList xs2 = sortJsonList ys2 →
            serializeArr (some K) xs2 = serializeArr (some K) ys2 := by
          intro xs2
          induction xs2 with
          | nil =>
            intro ys2 _ _ _ hs
            cases ys2 with
            | nil => rfl
            | cons y ys' => simp [sortJsonList] at hs
          | cons x xs' ihx =>
            intro ys2 hsz2 h1x h2x hs
            cases ys2 with
            | nil => simp [sortJsonList] at hs
            | cons y ys' =>
              simp only [sortJsonList, List.cons.injEq] at hs
              simp only [List.cons.sizeOf_spec] at hsz2
              simp only [keysNodupL, Bool.and_eq_true] at h1x h2x
              have hx := ih x y K (by omega) h1x.1 h2x.1 hs.1
              have ht := ihx ys' (by omega) h1x.2 h2x.2 hs.2
              simp only [serializeArr]
              rw [hx, ht]
        have h := aux xs ys hszl h1l h2l hsl
        simp only [serializeProp]
        rw [h]
      | jundefined => simp only [sortJson] at hsort; exact absurd hsort (by simp)
      | jnull => simp only [sortJson] at hsort; exact absurd hsort (by simp)
      | jbool b => simp only [sortJson] at hsort; exact absurd hsort (by simp)
      | jnum q => simp only [sortJson] at hsort; exact absurd hsort (by simp)
      | jstr s => simp only [sortJson] at hsort; exact absurd hsort (by simp)
      | jobj l => simp only [sortJson] at hsort; exact absurd hsort (by simp)
    | jobj l1 =>
      cases o2 with
      | jobj l2 =>
        have hso : sortFieldsByKey (sortJsonFields l1) = sortFieldsByKey (sortJsonFields l2) := by
          simp only [sortJson] at hsort
          injection hsort
        have h1f : keysNodupF l1 = true := by simpa [keysNodupV] using h1
        have h2f : keysNodupF l2 = true := by simpa [keysNodupV] using h2
        have hnd1 : ((sortJsonFields l1).map Prod.fst).Nodup := by
          rw [sortJsonFields_keys]
          exact keysNodupF_nodup l1 h1f
        have hnd2 : ((sortJsonFields l2).map Prod.fst).Nodup := by
          rw [sortJsonFields_keys]
          exact keysNodupF_nodup l2 h2f
        have hlk : ∀ k, (lookupJ k l1).map sortJson = (lookupJ k l2).map sortJson := by
          intro k
          rw [← lookupJ_sortJsonFields, ← lookupJ_sortJsonFields]
          rw [lookupJ_perm k (sortFieldsByKey_perm (sortJsonFields l1)).symm hnd1, hso,
            lookupJ_perm k (sortFieldsByKey_perm (sortJsonFields l2))
              ((((sortFieldsByKey_perm (sortJsonFields l2)).map Prod.fst).nodup_iff).mpr hnd2)]
        have hszf : sizeOf l1 ≤ n := by
          simp only [JsonValue.jobj.sizeOf_spec] at hsz
          omega
        have hser : ∀ k, (lookupJ k l1).map (serializeProp (some K))
            = (lookupJ k l2).map (serializeProp (some K)) := by
          intro k
          have hk := hlk k
          cases e1 : lookupJ k l1 with
          | none =>
            cases e2 : lookupJ k l2 with
            | none => rfl
            | some v2 => rw [e1, e2] at hk; simp at hk
          | some v1 =>
            cases e2 : lookupJ k l2 with
            | none => rw [e1, e2] at hk; simp at hk
            | some v2 =>
              rw [e1, e2] at hk
              simp only [Option.map_some'] at hk
              have hsmall : sizeOf v1 ≤ n := by
                have := lookupJ_sizeOf k l1 v1 e1
                omega
              have hv := ih v1 v2 K hsmall
                (keysNodupF_lookup k l1 v1 h1f e1) (keysNodupF_lookup k l2 v2 h2f e2)
                (by injection hk)
              simp only [Option.map_some']
              rw [hv]
        simp only [serializeProp]
        rw [selectFields_congr K (serializeFields (some K) l1) (serializeFields (some K) l2)
          (fun k _ => by rw [lookupSer_serializeFields, lookupSer_serializeFields, hser k])]
      | jundefined => simp only [sortJson] at hsort; exact absurd hsort (by simp)
      | jnull => simp only [sortJson] at hsort; exact absurd hsort (by simp)
      | jbool b => simp only [sortJson] at hsort; exact absurd hsort (by simp)
      | jnum q => simp only [sortJson] at hsort; exact absurd hsort (by simp)
      | jstr s => simp only [sortJson] at hsort; exact absurd hsort (by simp)
      | jarr xs => simp only [sortJson] at hsort; exact absurd hsort (by simp)

/-- C2: `hashObject` is canonicalization-invariant and deterministic — two
well-formed JS values that are structurally equal up to the ordering of
their fields (at the top level and at any nesting depth, i.e. with equal
key-sorted normal forms) get the same digest, and the digest of a value is
the same on every call. -/
theorem hashObject_canonicalization (o1 o2 : JsonValue)
    (h1 : keysNodupV o1 = true) (h2 : keysNodupV o2 = true)
    (hsort : sortJson o1 = sortJson o2) :
    hashObject o1 = hashObject o2 ∧ ∀ o : JsonValue, hashObject o = hashObject o := by
  refine ⟨?_, fun _ => rfl⟩
  have hK : sortKeys (topKeys o1) = sortKeys (topKeys o2) := by
    cases o1 with
    | jarr xs =>
      cases o2 with
      | jarr ys =>
        have hsl : sortJsonList xs = sortJsonList ys := by
          simp only [sortJson] at hsort
          injection hsort
        have hlen : xs.length = ys.length := by
          have := congrArg List.length hsl
          rwa [sortJsonList_length, sortJsonList_length] at this
        simp only [topKeys, hlen]
      | jundefined => simp only [sortJson] at hsort; injection hsort
      | jnull => simp only [sortJson] at hsort; injection hsort
      | jbool b => simp only [sortJson] at hsort; injection hsort
      | jnum q => simp only [sortJson] at hsort; injection hsort
      | jstr s => simp only [sortJson] at hsort; injection hsort
      | jobj l => simp only [sortJson] at hsort; injection hsort
    | jobj l1 =>
      cases o2 with
      | jobj l2 =>
        have hso : sortFieldsByKey (sortJsonFields l1) = sortFieldsByKey (sortJsonFields l2) := by
          simp only [sortJson] at hsort
          injection hsort
        simp only [topKeys]
        rw [← sortJsonFields_keys l1, ← sortJsonFields_keys l2]
        have p1 : ((sortJsonFields l1).map Prod.fst).Perm
            ((sortFieldsByKey (sortJsonFields l1)).map Prod.fst) :=
          ((sortFieldsByKey_perm (sortJsonFields l1)).map Prod.fst).symm
        have p2 : ((sortFieldsByKey (sortJsonFields l2)).map Prod.fst).Perm
            ((sortJsonFields l2).map Prod.fst) :=
          (sortFieldsByKey_perm (sortJsonFields l2)).map Prod.fst
        exact sortKeys_eq_of_perm (p1.trans (hso ▸ p2))
      | jundefined => simp only [sortJson] at hsort; injection hsort
      | jnull => simp only [sortJson] at hsort; injection hsort
      | jbool b => simp only [sortJson] at hsort; injection hsort
      | jnum q => simp only [sortJson] at hsort; injection hsort
      | jstr s => simp only [sortJson] at hsort; injection hsort
      | jarr xs => simp only [sortJson] at hsort; injection hsort
    | jundefined =>
      cases o2 <;> simp only [sortJson] at hsort <;> first | rfl | injection hsort
    | jnull =>
      cases o2 <;> simp only [sortJson] at hsort <;> first | rfl | injection hsort
    | jbool b1 =>
      cases o2 <;> simp only [sortJson] at hsort <;> first | rfl | injection hsort
    | jnum q1 =>
      cases o2 <;> simp only [sortJson] at hsort <;> first | rfl | injection hsort
    | jstr s1 =>
      cases o2 <;> simp only [sortJson] at hsort <;> first | rfl | injection hsort
  simp only [hashObject]
  apply congrArg sha256hex
  simp only [canonicalJson]
  rw [hK, serializeProp_eq_of_sortJson_eq (sizeOf o1) o1 o2 (sortKeys (topKeys o2))
    le_rfl h1 h2 hsort]

/-- C2 witness: two concrete objects reordered at the top level and at two
nested depths are well-formed, have the same key-sorted normal form, and
digest identically. -/
theorem hashObject_canonicalization_witness :
    keysNodupV reorderedLeft = true ∧ keysNodupV reorderedRight = true
    ∧ sortJson reorderedLeft = sortJson reorderedRight
    ∧ hashObject reorderedLeft = hashObject reorderedRight :=
  ⟨by decide, by decide, by decide,
   (hashObject_canonicalization reorderedLeft reorderedRight (by decide) (by decide) (by decide)).1⟩

/-- The code point of a decimal digit character. -/
theorem decDigitChar_toNat (d : Nat) (h : d < 10) : (decDigitChar d).toNat = 48 + d := by
  interval_cases d <;> decide

/-- `decDigitVal` inverts `decDigitChar` on digits. -/
theorem decDigitVal_decDigitChar (d : Nat) (h : d < 10) : decDigitVal (decDigitChar d) = d := by
  interval_cases d <;> decide

/-- Every character `natDecimalAux` emits is a decimal digit character. -/
theorem natDecimalAux_digits : ∀ (fuel n : Nat) (c : Char), c ∈ natDecimalAux fuel n →
    ∃ d, d < 10 ∧ c = decDigitChar d := by
  intro fuel
  induction fuel with
  | zero => intro n c h; cases h
  | succ f ih =>
    intro n c h
    simp only [natDecimalAux] at h
    split at h
    · cases h
    · rcases List.mem_append.mp h with h1 | h1
      · exact ih (n / 10) c h1
      · simp only [List.mem_singleton] at h1
        exact ⟨n % 10, Nat.mod_lt n (by norm_num), h1⟩

/-- `natDecimalAux` is a faithful decimal rendering: folding the digit
values back recovers the number. -/
theorem natDecimalAux_val : ∀ fuel n : Nat, n ≤ fuel →
    (natDecimalAux fuel n).foldl (fun acc c => acc * 10 + decDigitVal c) 0 = n := by
  intro fuel
  induction fuel with
  | zero =>
    intro n h
    interval_cases n
    rfl
  | succ f ih =>
    intro n h
    by_cases h0 : n = 0
    · subst h0; rfl
    · simp only [natDecimalAux, if_neg h0]
      rw [List.foldl_append]
      rw [ih (n / 10) (by
        have := Nat.div_lt_self (Nat.pos_of_ne_zero h0) (by norm_num : 1 < 10)
        omega)]
      simp only [List.foldl_cons, List.foldl_nil]
      rw [decDigitVal_decDigitChar (n % 10) (Nat.mod_lt n (by norm_num))]
      omega

/-- JS decimal rendering of naturals is injective. -/
theorem natDecimal_inj {a b : Nat} (h : natDecimal a = natDecimal b) : a = b := by
  have hval : ∀ n : Nat,
      ((natDecimal n).data).foldl (fun acc c => acc * 10 + decDigitVal c) 0 = n := by
    intro n
    by_cases h0 : n = 0
    · subst h0; rfl
    · simp only [natDecimal, if_neg h0]
      exact natDecimalAux_val n n le_rfl
  have := congrArg (fun s : String => s.data.foldl (fun acc c => acc * 10 + decDigitVal c) 0) h
  simpa [hval a, hval b] using this

/-- Every character of a rendered natural is a digit character. -/
theorem natDecimal_digits (n : Nat) (c : Char) (h : c ∈ (natDecimal n).data) :
    ∃ d, d < 10 ∧ c = decDigitChar d := by
  by_cases h0 : n = 0
  · subst h0
    have hc : c = '0' := by simpa [natDecimal] using h
    exact ⟨0, by norm_num, hc⟩
  · simp only [natDecimal, if_neg h0] at h
    exact natDecimalAux_digits n n c h

/-- Splitting a char list at a separator absent from both prefixes is
unambiguous. -/
theorem append_cons_split (c : Char) : ∀ {a1 a2 b1 b2 : List Char}, c ∉ a1 → c ∉ a2 →
    a1 ++ c :: b1 = a2 ++ c :: b2 → a1 = a2 ∧ b1 = b2 := by
  intro a1
  induction a1 with
  | nil =>
    intro a2 b1 b2 _ h2 heq
    cases a2 with
    | nil =>
      simp only [List.nil_append, List.cons.injEq] at heq
      exact ⟨rfl, heq.2⟩
    | cons y ys =>
      simp only [List.nil_append, List.cons_append, List.cons.injEq] at heq
      exact absurd (heq.1 ▸ List.mem_cons_self y ys) (heq.1 ▸ h2)
  | cons x xs ih =>
    intro a2 b1 b2 h1 h2 heq
    cases a2 with
    | nil =>
      simp only [List.cons_append, List.nil_append, List.cons.injEq] at heq
      exact absurd (heq.1 ▸ List.mem_cons_self x xs) (fun hh => h1 (heq.1 ▸ hh))
    | cons y ys =>
      simp only [List.cons_append, List.cons.injEq] at heq
      have hx : c ∉ xs := fun hh => h1 (List.mem_cons_of_mem x hh)
      have hy : c ∉ ys := fun hh => h2 (List.mem_cons_of_mem y hh)
      obtain ⟨he1, he2⟩ := ih hx hy heq.2
      exact ⟨by rw [heq.1, he1], he2⟩

/-- Unicode scalar values are below `0x110000`. -/
theorem charToNat_lt (c : Char) : c.toNat < 1114112 := by
  rcases c.valid with h | h
  · exact Nat.lt_trans h (by norm_num)
  · exact h.2

/-- A character's UTF-8 encoding is nonempty. -/
theorem charUtf8_ne_nil (c : Char) : charUtf8 c ≠ [] := by
  simp only [charUtf8]
  split_ifs <;> simp

/-- UTF-8 bytes are bytes. -/
theorem charUtf8_lt_256 (c : Char) : ∀ b ∈ charUtf8 c, b < 256 := by
  have hb := charToNat_lt c
  intro b h
  simp only [charUtf8] at h
  split_ifs at h <;>
    simp only [List.mem_cons, List.not_mem_nil, or_false] at h <;>
    rcases h with h | h | h | h <;>
    omega

/-- UTF-8 is a prefix code: equal byte streams starting with two encoded
characters force the characters (and the remainders) to agree. -/
theorem charUtf8_append_inj {c1 c2 : Char} {r1 r2 : List Nat}
    (h : charUtf8 c1 ++ r1 = charUtf8 c2 ++ r2) : c1 = c2 ∧ r1 = r2 := by
  have hb1 := charToNat_lt c1
  have hb2 := charToNat_lt c2
  simp only [charUtf8] at h
  split_ifs at h <;>
    simp only [List.cons_append, List.nil_append, List.cons.injEq] at h <;>
    first
    | exact ⟨charToNat_inj (by omega), h.2⟩
    | exact ⟨charToNat_inj (by omega), h.2.2⟩
    | exact ⟨charToNat_inj (by omega), h.2.2.2⟩
    | exact ⟨charToNat_inj (by omega), h.2.2.2.2⟩
    | exact absurd h.1 (by omega)

/-- UTF-8 encoding of strings is injective. -/
theorem utf8Bytes_inj {s1 s2 : String} (h : utf8Bytes s1 = utf8Bytes s2) : s1 = s2 := by
  have aux : ∀ l1 l2 : List Char, l1.flatMap charUtf8 = l2.flatMap charUtf8 → l1 = l2 := by
    intro l1
    induction l1 with
    | nil =>
      intro l2 hh
      cases l2 with
      | nil => rfl
      | cons y ys =>
        simp only [List.flatMap_nil, List.flatMap_cons] at hh
        exact absurd hh.symm (by simp [charUtf8_ne_nil y])
    | cons x xs ih =>
      intro l2 hh
      cases l2 with
      | nil =>
        simp only [List.flatMap_nil, List.flatMap_cons] at hh
        exact absurd hh (by simp [charUtf8_ne_nil x])
      | cons y ys =>
        simp only [List.flatMap_cons] at hh
        obtain ⟨hc, hr⟩ := charUtf8_append_inj hh
        rw [hc, ih ys hr]
  cases s1 with
  | mk d1 =>
    cases s2 with
    | mk d2 => exact congrArg String.mk (aux d1 d2 h)

/-- All UTF-8 bytes of a string are bytes. -/
theorem utf8Bytes_lt_256 (s : String) : ∀ b ∈ utf8Bytes s, b < 256 := by
  intro b h
  simp only [utf8Bytes, List.mem_flatMap] at h
  obtain ⟨c, _, hc⟩ := h
  exact charUtf8_lt_256 c b hc

/-- `b64Char` is injective on sextets. -/
theorem b64Char_inj_lt : ∀ a, a < 64 → ∀ b, b < 64 → b64Char a = b64Char b → a = b := by decide

/-- No base64url digit is a dot. -/
theorem b64Char_ne_dot (n : Nat) : b64Char n ≠ '.' := by
  by_cases h : n < 64
  · revert n
    decide
  · simp only [b64Char]
    rw [List.getD_eq_default]
    · decide
    · simp only [b64Alphabet, List.length]
      omega

/-- No character of a base64url encoding is a dot. -/
theorem b64Encode_no_dot : ∀ (n : Nat) (bs : List Nat), bs.length ≤ n →
    ∀ c ∈ b64Encode bs, c ≠ '.' := by
  intro n
  induction n with
  | zero =>
    intro bs h c hc
    have hz : bs = [] := List.length_eq_zero.mp (Nat.le_zero.mp h)
    subst hz
    cases hc
  | succ m ih =>
    intro bs hlen c hc
    rcases bs with _ | ⟨a, _ | ⟨b, _ | ⟨d, rest⟩⟩⟩
    · cases hc
    · simp only [b64Encode, List.mem_cons, List.not_mem_nil, or_false] at hc
      rcases hc with hc | hc <;> (subst hc; exact b64Char_ne_dot _)
    · simp only [b64Encode, List.mem_cons, List.not_mem_nil, or_false] at hc
      rcases hc with hc | hc | hc <;> (subst hc; exact b64Char_ne_dot _)
    · simp only [b64Encode, List.mem_cons] at hc
      rcases hc with hc | hc | hc | hc | hc
      · subst hc; exact b64Char_ne_dot _
      · subst hc; exact b64Char_ne_dot _
      · subst hc; exact b64Char_ne_dot _
      · subst hc; exact b64Char_ne_dot _
      · refine ih rest ?_ c hc
        simp only [List.length_cons] at hlen
        omega

/-- Unpadded base64url encoding is injective on byte lists. -/
theorem b64Encode_inj : ∀ (n : Nat) (xs ys : List Nat), xs.length ≤ n →
    (∀ b ∈ xs, b < 256) → (∀ b ∈ ys, b < 256) →
    b64Encode xs = b64Encode ys → xs = ys := by
  intro n
  induction n with
  | zero =>
    intro xs ys hlen hx hy h
    have hz : xs = [] := List.length_eq_zero.mp (Nat.le_zero.mp hlen)
    subst hz
    rcases ys with _ | ⟨a2, _ | ⟨b2, _ | ⟨c2, rest2⟩⟩⟩ <;>
      first
      | rfl
      | exact absurd h (by simp [b64Encode])
  | succ m ih =>
    intro xs ys hlen hx hy h
    rcases xs with _ | ⟨a1, _ | ⟨b1, _ | ⟨c1, rest1⟩⟩⟩ <;>
      rcases ys with _ | ⟨a2, _ | ⟨b2, _ | ⟨c2, rest2⟩⟩⟩ <;>
      simp only [b64Encode] at h
    · rfl
    · exact absurd h (by simp)
    · exact absurd h (by simp)
    · exact absurd h (by simp)
    · exact absurd h (by simp)
    · simp only [List.cons.injEq, and_true] at h
      have ha1 := hx a1 (by simp)
      have ha2 := hy a2 (by simp)
      have e1 := b64Char_inj_lt _ (by omega) _ (by omega) h.1
      have e2 := b64Char_inj_lt _ (by omega) _ (by omega) h.2
      have : a1 = a2 := by omega
      rw [this]
    · exact absurd h (by simp)
    · exact absurd h (by simp)
    · exact absurd h (by simp)
    · exact absurd h (by simp)
    · simp only [List.cons.injEq, and_true] at h
      have ha1 := hx a1 (by simp)
      have hb1 := hx b1 (by simp)
      have ha2 := hy a2 (by simp)
      have hb2 := hy b2 (by simp)
      have e1 := b64Char_inj_lt _ (by omega) _ (by omega) h.1
      have e2 := b64Char_inj_lt _ (by omega) _ (by omega) h.2.1
      have e3 := b64Char_inj_lt _ (by omega) _ (by omega) h.2.2
      have : a1 = a2 ∧ b1 = b2 := by omega
      rw [this.1, this.2]
    · exact absurd h (by simp)
    · exact absurd h (by simp)
    · exact absurd h (by simp)
    · exact absurd h (by simp)
    · simp only [List.cons.injEq] at h
      have ha1 := hx a1 (by simp)
      have hb1 := hx b1 (by simp)
      have hc1 := hx c1 (by simp)
      have ha2 := hy a2 (by simp)
      have hb2 := hy b2 (by simp)
      have hc2 := hy c2 (by simp)
      have e1 := b64Char_inj_lt _ (by omega) _ (by omega) h.1
      have e2 := b64Char_inj_lt _ (by omega) _ (by omega) h.2.1
      have e3 := b64Char_inj_lt _ (by omega) _ (by omega) h.2.2.1
      have e4 := b64Char_inj_lt _ (by omega) _ (by omega) h.2.2.2.1
      have heq : a1 = a2 ∧ b1 = b2 ∧ c1 = c2 := by omega
      have hrest : rest1 = rest2 := by
        refine ih rest1 rest2 ?_ ?_ ?_ h.2.2.2.2
        · simp only [List.length_cons] at hlen
          omega
        · exact fun b hb => hx b (by simp [hb])
        · exact fun b hb => hy b (by simp [hb])
      rw [heq.1, heq.2.1, heq.2.2, hrest]

/-- Two compact JWS tokens with the same protected header that are equal as
strings have the same payload JSON (base64url is dot-free, so the token
splits unambiguously at the dots, and base64url and UTF-8 are injective). -/
theorem compactJWS_payload_inj (secret H P1 P2 : String)
    (h : compactJWS secret H P1 = compactJWS secret H P2) : P1 = P2 := by
  have hd := congrArg String.data h
  simp only [compactJWS, b64Str, String.data_append, List.append_assoc] at hd
  have hd2 := List.append_cancel_left (List.append_cancel_left hd)
  simp only [List.singleton_append] at hd2
  have hsplit := append_cons_split '.'
    (fun hh => (b64Encode_no_dot (utf8Bytes P1).length (utf8Bytes P1) le_rfl '.' hh) rfl)
    (fun hh => (b64Encode_no_dot (utf8Bytes P2).length (utf8Bytes P2) le_rfl '.' hh) rfl)
    hd2
  exact utf8Bytes_inj (b64Encode_inj (utf8Bytes P1).length _ _ le_rfl
    (utf8Bytes_lt_256 P1) (utf8Bytes_lt_256 P2) hsplit.1)

/-- A plain character passes through JSON quoting unescaped. -/
theorem quoteJsonChar_plain {c : Char} (h : jsonPlainChar c = true) : quoteJsonChar c = [c] := by
  simp only [jsonPlainChar, Bool.and_eq_true, Bool.not_eq_true', beq_eq_false_iff_ne,
    decide_eq_true_eq] at h
  obtain ⟨⟨h32, hq⟩, hbs⟩ := h
  simp only [quoteJsonChar, if_neg hq, if_neg hbs]
  rw [if_neg (by omega), if_neg (by omega), if_neg (by omega), if_neg (by omega),
    if_neg (by omega), if_neg (by omega)]

/-- JSON escaping is the identity on lists of plain characters. -/
theorem flatMap_quote_plain : ∀ l : List Char, l.all jsonPlainChar = true →
    l.flatMap quoteJsonChar = l := by
  intro l
  induction l with
  | nil => intro _; rfl
  | cons c rest ih =>
    intro h
    simp only [List.all_cons, Bool.and_eq_true] at h
    simp only [List.flatMap_cons, quoteJsonChar_plain h.1, ih h.2, List.singleton_append]

/-- Quoting a plain string just wraps it in double quotes. -/
theorem quoteJson_plain {s : String} (h : s.data.all jsonPlainChar = true) :
    quoteJson s = "\"" ++ s ++ "\"" := by
  simp only [quoteJson, flatMap_quote_plain s.data h]

/-- A plain character is not a double quote. -/
theorem plain_ne_quote {c : Char} (h : jsonPlainChar c = true) : c ≠ '"' := by
  simp only [jsonPlainChar, Bool.and_eq_true, Bool.not_eq_true', beq_eq_false_iff_ne] at h
  exact h.1.2

/-- The fully unfolded member list of a payment-mandate claim-set JSON. -/
theorem paymentPayloadJson_shape (p : PaymentMandateJWTPayload) :
    paymentPayloadJson p
      = "\x7b" ++ commaJoin
          [quoteJson "iss" ++ ":" ++ quoteJson p.iss,
           quoteJson "sub" ++ ":" ++ quoteJson p.sub,
           quoteJson "aud" ++ ":" ++ quoteJson p.aud,
           quoteJson "payment_mandate_id" ++ ":" ++ quoteJson p.payment_mandate_id,
           quoteJson "mandate_hash" ++ ":" ++ quoteJson p.mandate_hash,
           quoteJson "transaction_data" ++ ":" ++
             ("[" ++ commaJoin (serializeArr none (p.transaction_data.map JsonValue.jstr)) ++ "]"),
           quoteJson "iat" ++ ":" ++ numToString (p.iat : Rat),
           quoteJson "exp" ++ ":" ++ numToString (p.exp : Rat),
           quoteJson "jti" ++ ":" ++ quoteJson p.jti] ++ "\x7d" := rfl

/-- Equal payment claim-set JSON texts with the same issuer block and plain
mandate ids force the ids to agree (the id sits between the first
unescaped quotes after a fixed prefix). -/
theorem paymentPayloadJson_id_inj (p1 p2 : PaymentMandateJWTPayload)
    (hplain1 : p1.payment_mandate_id.data.all jsonPlainChar = true)
    (hplain2 : p2.payment_mandate_id.data.all jsonPlainChar = true)
    (hiss : p1.iss = p2.iss) (hsub : p1.sub = p2.sub) (haud : p1.aud = p2.aud)
    (heq : paymentPayloadJson p1 = paymentPayloadJson p2) :
    p1.payment_mandate_id = p2.payment_mandate_id := by
  rw [paymentPayloadJson_shape, paymentPayloadJson_shape] at heq
  simp only [commaJoin] at heq
  rw [quoteJson_plain hplain1, quoteJson_plain hplain2, hiss, hsub, haud] at heq
  have hd := congrArg String.data heq
  simp only [String.data_append, List.append_assoc] at hd
  repeat replace hd := List.append_cancel_left hd
  simp only [List.singleton_append] at hd
  have hnq1 : '"' ∉ p1.payment_mandate_id.data := fun hm =>
    plain_ne_quote (List.all_eq_true.mp hplain1 '"' hm) rfl
  have hnq2 : '"' ∉ p2.payment_mandate_id.data := fun hm =>
    plain_ne_quote (List.all_eq_true.mp hplain2 '"' hm) rfl
  have hsplit := append_cons_split '"' hnq1 hnq2 hd
  cases hid1 : p1.payment_mandate_id with
  | mk d1 =>
    cases hid2 : p2.payment_mandate_id with
    | mk d2 =>
      rw [hid1, hid2] at hsplit
      exact congrArg String.mk hsplit.1

/-- A character with code point in [32,∞) other than 34 (`"`) and 92 (`\`)
is plain. -/
theorem plain_of_range {c : Char} (h1 : 32 ≤ c.toNat) (h2 : c.toNat ≠ 34) (h3 : c.toNat ≠ 92) :
    jsonPlainChar c = true := by
  simp only [jsonPlainChar, Bool.and_eq_true, Bool.not_eq_true', beq_eq_false_iff_ne]
  exact ⟨⟨by simpa using h1, fun hc => h2 (by rw [hc]; decide)⟩,
    fun hc => h3 (by rw [hc]; decide)⟩

/-- Base-36 id characters are plain JSON string characters. -/
theorem idSafeChar_plain {c : Char} (h : idSafeChar c = true) : jsonPlainChar c = true := by
  simp only [idSafeChar, Bool.or_eq_true, Bool.and_eq_true, decide_eq_true_eq] at h
  refine plain_of_range (by omega) (by omega) (by omega)

/-- Every character of a generated `pm-<now>-<rand>` mandate id is a plain
JSON string character. -/
theorem mandateId_plain (t : Nat) (r : String) (hr : r.data.all idSafeChar = true) :
    ("pm-" ++ natDecimal t ++ "-" ++ r).data.all jsonPlainChar = true := by
  simp only [String.data_append, List.all_append, Bool.and_eq_true]
  refine ⟨⟨⟨by decide, ?_⟩, by decide⟩, ?_⟩
  · rw [List.all_eq_true]
    intro c hc
    obtain ⟨d, hd, hcd⟩ := natDecimal_digits t c hc
    have htn : c.toNat = 48 + d := by rw [hcd]; exact decDigitChar_toNat d hd
    exact plain_of_range (by omega) (by omega) (by omega)
  · rw [List.all_eq_true]
    intro c hc
    exact idSafeChar_plain (List.all_eq_true.mp hr c hc)

/-- `pm-<now>-<rand>` ids are injective in the (timestamp, randomness)
pair when the randomness is base-36 (dash-free). -/
theorem mandateId_split (t1 t2 : Nat) (r1 r2 : String)
    (hr1 : r1.data.all idSafeChar = true) (hr2 : r2.data.all idSafeChar = true)
    (h : ("pm-" ++ natDecimal t1 ++ "-" ++ r1 : String) = "pm-" ++ natDecimal t2 ++ "-" ++ r2) :
    t1 = t2 ∧ r1 = r2 := by
  have hd := congrArg String.data h
  simp only [String.data_append, List.append_assoc] at hd
  replace hd := List.append_cancel_left hd
  have hdash : ("-" : String).data = ['-'] := rfl
  simp only [hdash, List.singleton_append] at hd
  have hnd : ∀ t : Nat, '-' ∉ (natDecimal t).data := by
    intro t hm
    obtain ⟨d, hdlt, hcd⟩ := natDecimal_digits t '-' hm
    have htn := decDigitChar_toNat d hdlt
    rw [← hcd, show ('-' : Char).toNat = 45 from rfl] at htn
    omega
  have hnr : ∀ (r : String), r.data.all idSafeChar = true → '-' ∉ r.data := by
    intro r hr hm
    have := List.all_eq_true.mp hr '-' hm
    simp only [idSafeChar, Bool.or_eq_true, Bool.and_eq_true, decide_eq_true_eq,
      show ('-' : Char).toNat = 45 from rfl] at this
    omega
  have hsplit := append_cons_split '-' (hnd t1) (hnd t2) hd
  exact ⟨natDecimal_inj (String.ext hsplit.1), String.ext hsplit.2⟩

/-- C6: two `create_payment_mandate` invocations for the same selected
cart mandate and payment method (as on a retry after a settlement failure)
whose nondeterministic inputs differ — different `Date.now()` readings or
different `Math.random()` base-36 suffixes — produce payment mandates with
different `payment_mandate_id` values and different `user_authorization`
JWS tokens, and each invocation returns its freshly signed mandate (a
failed mandate is never reused). -/
theorem payment_mandate_retry_distinct
    (cm : CartMandate) (pm : PaymentMethod) (secret : String)
    (t1 t2 s1 s2 : Nat) (r1 r2 ts1 ts2 : String) (ctx : Option String)
    (hr1 : r1.data.all idSafeChar = true) (hr2 : r2.data.all idSafeChar = true)
    (hne : (t1, r1) ≠ (t2, r2)) :
    (createPaymentMandateContents cm pm t1 r1 ts1).payment_mandate_id ≠
      (createPaymentMandateContents cm pm t2 r2 ts2).payment_mandate_id ∧
    signPaymentMandate secret (createPaymentMandateContents cm pm t1 r1 ts1) s1 ≠
      signPaymentMandate secret (createPaymentMandateContents cm pm t2 r2 ts2) s2 ∧
    shoppingCreatePaymentMandate ctx (some cm) (some pm) secret t1 s1 r1 ts1 =
      .ok { payment_mandate_contents := createPaymentMandateContents cm pm t1 r1 ts1
            user_authorization := some (signPaymentMandate secret
              (createPaymentMandateContents cm pm t1 r1 ts1) s1) }
        (resolveContextId ctx t1) := by
  have key : ("pm-" ++ natDecimal t1 ++ "-" ++ r1 : String) =
      "pm-" ++ natDecimal t2 ++ "-" ++ r2 → False := by
    intro hid
    obtain ⟨h1, h2⟩ := mandateId_split t1 t2 r1 r2 hr1 hr2 hid
    exact hne (by rw [h1, h2])
  refine ⟨fun hid => key hid, fun htok => ?_, rfl⟩
  simp only [signPaymentMandate] at htok
  have hpay := compactJWS_payload_inj secret userHeaderJson _ _ htok
  have hid := paymentPayloadJson_id_inj
    (paymentMandatePayload (createPaymentMandateContents cm pm t1 r1 ts1) s1)
    (paymentMandatePayload (createPaymentMandateContents cm pm t2 r2 ts2) s2)
    (mandateId_plain t1 r1 hr1) (mandateId_plain t2 r2 hr2)
    rfl rfl rfl hpay
  exact key hid

/-- Witness for C6 at two concrete invocations (timestamps 1 and 2,
distinct base-36 suffixes). -/
theorem payment_mandate_retry_distinct_witness :
    (("a1b2c3d4e" : String).data.all idSafeChar = true ∧
     ("f5g6h7i8j" : String).data.all idSafeChar = true ∧
     ((1 : Nat), ("a1b2c3d4e" : String)) ≠ ((2 : Nat), ("f5g6h7i8j" : String))) ∧
    ((createPaymentMandateContents sampleCartMandate samplePm 1 "a1b2c3d4e" "ts1").payment_mandate_id ≠
       (createPaymentMandateContents sampleCartMandate samplePm 2 "f5g6h7i8j" "ts2").payment_mandate_id ∧
     signPaymentMandate "secret" (createPaymentMandateContents sampleCartMandate samplePm 1 "a1b2c3d4e" "ts1") 10 ≠
       signPaymentMandate "secret" (createPaymentMandateContents sampleCartMandate samplePm 2 "f5g6h7i8j" "ts2") 20 ∧
     shoppingCreatePaymentMandate (some "ctx-1") (some sampleCartMandate) (some samplePm) "secret" 1 10 "a1b2c3d4e" "ts1" =
       .ok { payment_mandate_contents := createPaymentMandateContents sampleCartMandate samplePm 1 "a1b2c3d4e" "ts1"
             user_authorization := some (signPaymentMandate "secret"
               (createPaymentMandateContents sampleCartMandate samplePm 1 "a1b2c3d4e" "ts1") 10) }
         (resolveContextId (some "ctx-1") 1)) :=
  ⟨⟨by decide, by decide, by decide⟩,
   payment_mandate_retry_distinct sampleCartMandate samplePm "secret" 1 2 10 20
     "a1b2c3d4e" "f5g6h7i8j" "ts1" "ts2" (some "ctx-1") (by decide) (by decide) (by decide)⟩
